import Mathlib

/-!
# The TP3 memory allocator (`lib/memory`)

A shallow embedding of `memory.h` / `memory.c`.

* The chain of block headers that starts at `base` and follows `next` is a
  `List s_block`; `base == NULL` is the empty list.  A `t_block` pointer into
  the chain is the position of the block in the list, `c->next` of position `i`
  is position `i + 1` and `c->prev` is position `i - 1` (`NULL` at position 0);
  this is the doubly linked shape that `extend_heap`, `split_block`, `fusion`
  and `realloc` maintain.  Header fields live in the block records, `mem` holds
  the payload bytes only.
* `size_t` values are naturals; every addition and multiplication that can wrap
  is reduced modulo `2 ^ 64`, every subtraction is `sub64`.
* The operating system is a pair of answer lists: `regions` are the results of
  the successive `mmap` calls made by `extend_heap` (`none` is `MAP_FAILED`),
  `logmem` tells whether each `mmap` made by `add_log` succeeds.  A list that
  has run out answers with failure.  `brk` is the value of `sbrk(0)` and `now`
  the value of `time(NULL)`.
* The list is the chain of the program as long as every header lies at the
  start of a region or inside the block it was split from.  The traces that
  leave this shape (a header written over another header, over payload bytes
  or over a log record) and the `int` counters are treated in the second part,
  `Memory.Raw`, on one byte-addressed memory.
-/

namespace Memory

/-! ## Constants of `memory.h` -/

/-- Number of values of a `size_t` (LP64). -/
def SIZE_MOD : Nat := 2 ^ 64

/-- Macro `BLOCK_SIZE`. -/
def BLOCK_SIZE : Nat := 40

/-- Macro `PAGESIZE`. -/
def PAGESIZE : Nat := 4096

/-- Macro `FIRST_FIT`. -/
def FIRST_FIT : Int := 0

/-- Macro `BEST_FIT`. -/
def BEST_FIT : Int := 1

/-- Macro `WORST_FIT`. -/
def WORST_FIT : Int := 2

/-- Macro `DATA_START`. -/
def DATA_START : Nat := 1

/-- Macro `align(x)`: `((x) == 0) ? 8 : (((((x) - 1) >> 3) << 3) + 8)` on a `size_t`. -/
def align (x : Nat) : Nat :=
  if x = 0 then 8 else ((((x - 1) >>> 3) <<< 3) + 8) % SIZE_MOD

/-- Subtraction of two `size_t` values. -/
def sub64 (a b : Nat) : Nat := (a % SIZE_MOD + SIZE_MOD - b % SIZE_MOD) % SIZE_MOD

/-! ## Layout of `struct s_block` (LP64) -/

/-- Rounds an offset up to a multiple of the alignment. -/
def align_up (off al : Nat) : Nat := (off + al - 1) / al * al

/-- The members of `struct s_block` in declaration order as (size, alignment):
`size_t size; struct s_block* next; struct s_block* prev; int free; void* ptr;
char data[DATA_START];`. -/
def s_block_members : List (Nat × Nat) :=
  [(8, 8), (8, 8), (8, 8), (4, 4), (8, 8), (DATA_START, 1)]

/-- End offset of the last of the given members laid out one after the other. -/
def members_end (ms : List (Nat × Nat)) : Nat :=
  ms.foldl (fun off m => align_up off m.2 + m.1) 0

/-- Alignment of a struct with the given members. -/
def members_align (ms : List (Nat × Nat)) : Nat :=
  ms.foldl (fun a m => max a m.2) 1

/-- The value of `sizeof(struct s_block)`. -/
def sizeof_s_block : Nat :=
  align_up (members_end s_block_members) (members_align s_block_members)

/-- Offset of the member `data` in `struct s_block`. -/
def offsetof_data : Nat :=
  align_up (members_end (s_block_members.take 5)) 1

/-! ## Data model -/

/-- A block header `struct s_block`: `addr` is the address of the header, the
links `next` and `prev` are the position in the chain. -/
structure s_block where
  addr : Nat
  size : Nat
  free : Bool
  ptr : Nat
deriving DecidableEq, Repr

/-- Address of the member `data` of a header: the expression `b->data`. -/
def s_block.data (b : s_block) : Nat := b.addr + offsetof_data

/-- A log record `t_log_entry`; the link `next` is the tail of the list. -/
structure t_log_entry where
  op : String
  size : Nat
  timestamp : Nat
  counter : Nat
deriving DecidableEq, Repr

/-- The globals of `memory.c` together with the memory and the operating system. -/
structure Heap where
  blocks : List s_block
  method : Int
  registro_malloc : Nat
  registro_free : Nat
  registro_realloc : Nat
  registro_calloc : Nat
  log_head : List t_log_entry
  mem : Nat → Nat
  brk : Nat
  regions : List (Option Nat)
  logmem : List Bool
  now : Nat

/-! ## `find_block` -/

/-- The loop of `case FIRST_FIT`: `bs` is the chain from `b` on, `i` the
position of `b`, `last` the value of `*last`. -/
def first_fit_loop (size : Nat) : List s_block → Nat → Nat → Option Nat × Nat
  | [], _, last => (none, last)
  | b :: rest, i, last =>
    if b.free && decide (b.size ≥ size) then (some i, last)
    else first_fit_loop size rest (i + 1) i

/-- The loop of `case BEST_FIT` with its locals `dif` and `best`. -/
def best_fit_loop (size : Nat) :
    List s_block → Nat → Nat → Option Nat → Nat → Option Nat × Nat
  | [], _, _, best, last => (best, last)
  | b :: rest, i, dif, best, last =>
    if b.free then
      if b.size = size then (some i, last)
      else if b.size > size ∧ sub64 b.size size < dif then
        best_fit_loop size rest (i + 1) (sub64 b.size size) (some i) i
      else best_fit_loop size rest (i + 1) dif best i
    else best_fit_loop size rest (i + 1) dif best i

/-- The loop of `case WORST_FIT` with its locals `max_size` and `worst`. -/
def worst_fit_loop (size : Nat) :
    List s_block → Nat → Nat → Option Nat → Nat → Option Nat × Nat
  | [], _, _, worst, last => (worst, last)
  | b :: rest, i, max_size, worst, _ =>
    if b.free && decide (b.size ≥ size) then
      if b.size > max_size then worst_fit_loop size rest (i + 1) b.size (some i) i
      else worst_fit_loop size rest (i + 1) max_size worst i
    else worst_fit_loop size rest (i + 1) max_size worst i

/-- Function `find_block(&last, size)` called with `*last == base`, as `malloc`
does: the block found (`none` is `NULL`) and the final value of `*last`. -/
def find_block (blocks : List s_block) (method : Int) (size : Nat) : Option Nat × Nat :=
  if method = FIRST_FIT then first_fit_loop size blocks 0 0
  else if method = BEST_FIT then best_fit_loop size blocks 0 PAGESIZE none 0
  else if method = WORST_FIT then worst_fit_loop size blocks 0 0 none 0
  else (none, 0)

/-! ## Block directory -/

/-- The loop of `get_block`; `i` is the position of the head of the chain `bs`. -/
def get_block_loop (p : Nat) : List s_block → Nat → Option Nat
  | [], _ => none
  | b :: rest, i => if b.ptr = p then some i else get_block_loop p rest (i + 1)

/-- Function `get_block(p)`: the first block of the chain whose `ptr` is `p`. -/
def get_block (blocks : List s_block) (p : Nat) : Option Nat :=
  get_block_loop p blocks 0

/-- Function `valid_addr(p)`. -/
def valid_addr (h : Heap) (p : Nat) : Bool :=
  match h.blocks with
  | [] => false
  | base :: _ =>
    if p > base.addr ∧ p < h.brk then
      match get_block h.blocks p with
      | some b =>
        match h.blocks[b]? with
        | some blk => decide (p = blk.ptr)
        | none => false
      | none => false
    else false

/-- The assignment `b->free = v` on the block at position `b`. -/
def set_free (v : Bool) : List s_block → Nat → List s_block
  | [], _ => []
  | b :: rest, 0 => { b with free := v } :: rest
  | b :: rest, i + 1 => b :: set_free v rest i

/-- Function `split_block(b, s)` on the block at position `b`. -/
def split_block (blocks : List s_block) (b : Nat) (s : Nat) : List s_block :=
  match blocks.drop b with
  | [] => blocks
  | blk :: rest =>
    if blk.size ≤ (s + BLOCK_SIZE) % SIZE_MOD then blocks
    else
      let new : s_block :=
        { addr := blk.data + s
          size := sub64 (sub64 blk.size s) BLOCK_SIZE
          free := true
          ptr := blk.data + s + offsetof_data }
      blocks.take b ++ { blk with size := s } :: new :: rest

/-- The first loop of `fusion`: from position `c` back while the predecessor is free. -/
def fusion_back (blocks : List s_block) : Nat → Nat
  | 0 => 0
  | c + 1 =>
    match blocks[c]? with
    | some p => if p.free then fusion_back blocks c else c + 1
    | none => c + 1

/-- The second loop of `fusion` on the block `c` and the chain after it. -/
def fusion_fwd : s_block → List s_block → List s_block
  | c, [] => [c]
  | c, n :: rest =>
    if n.free then
      fusion_fwd { c with size := (c.size + (BLOCK_SIZE + n.size) % SIZE_MOD) % SIZE_MOD } rest
    else c :: n :: rest

/-- Function `fusion(c)`: the new chain and the position of the block returned. -/
def fusion (blocks : List s_block) (c : Nat) : List s_block × Nat :=
  let c1 := fusion_back blocks c
  match blocks.drop c1 with
  | [] => (blocks, c1)
  | b :: rest => (blocks.take c1 ++ fusion_fwd b rest, c1)

/-- Function `extend_heap(last, s)`: the new block (`none` when `mmap` fails)
and the state after the call.  With `last` at position `j` the assignment
`last->next = b` makes the chain end with `b` right after position `j`. -/
def extend_heap (h : Heap) (last : Option Nat) (s : Nat) : Option s_block × Heap :=
  match h.regions with
  | [] => (none, h)
  | none :: rs => (none, { h with regions := rs })
  | some a :: rs =>
    let b : s_block := { addr := a, size := s, free := false, ptr := a + offsetof_data }
    match last with
    | some j => (some b, { h with regions := rs, blocks := h.blocks.take (j + 1) ++ [b] })
    | none => (some b, { h with regions := rs })

/-- Function `get_method(m)`, which stores `m` as `set_method` does. -/
def get_method (h : Heap) (m : Int) : Heap := { h with method := m }

/-- Function `set_method(m)`. -/
def set_method (h : Heap) (m : Int) : Heap := { h with method := m }

/-- Function `malloc_control(m)`. -/
def malloc_control (h : Heap) (m : Int) : Heap :=
  if m = 0 then set_method h FIRST_FIT
  else if m = 1 then set_method h BEST_FIT
  else if m = 2 then set_method h WORST_FIT
  else h

/-! ## Diagnostics -/

/-- Function `add_log(op, size, counter)`. -/
def add_log (h : Heap) (op : String) (size : Nat) (counter : Nat) : Heap :=
  match h.logmem with
  | [] => h
  | false :: r => { h with logmem := r }
  | true :: r =>
    { h with
      logmem := r
      log_head :=
        { op := String.mk (op.data.take 9), size := size, timestamp := h.now,
          counter := counter } :: h.log_head }

/-! ## Allocation engine -/

/-- The first statements of `malloc`: `registro_malloc++; s = align(size);
add_log("malloc", s, (unsigned int)registro_malloc);`. -/
def malloc_entry (h0 : Heap) (size : Nat) : Heap :=
  add_log { h0 with registro_malloc := h0.registro_malloc + 1 } "malloc" (align size)
    ((h0.registro_malloc + 1) % 2 ^ 32)

/-- Function `malloc(size)`: the pointer returned (0 is `NULL`) and the state. -/
def malloc (h0 : Heap) (size : Nat) : Nat × Heap :=
  let s := align size
  let h := malloc_entry h0 size
  if h.blocks ≠ [] then
    match find_block h.blocks h.method s with
    | (some b, _) =>
      match h.blocks[b]? with
      | some blk =>
        let blocks1 :=
          if sub64 blk.size s ≥ BLOCK_SIZE + 4 then split_block h.blocks b s else h.blocks
        (blk.data, { h with blocks := set_free false blocks1 b })
      | none => (0, h)
    | (none, last) =>
      match extend_heap h (some last) s with
      | (some b, h2) => (b.data, h2)
      | (none, h2) => (0, h2)
  else
    match extend_heap h none s with
    | (some b, h2) => (b.data, { h2 with blocks := [b] })
    | (none, h2) => (0, h2)

/-- The first statements of `free`: `registro_free++; add_log("free", 0,
(unsigned int)registro_free);`. -/
def free_entry (h0 : Heap) : Heap :=
  add_log { h0 with registro_free := h0.registro_free + 1 } "free" 0
    ((h0.registro_free + 1) % 2 ^ 32)

/-- Function `free(ptr)`.  The final `if (!c->prev) base = c;` assigns to `base`
the head of the chain, which it already is. -/
def free (h0 : Heap) (ptr : Nat) : Heap :=
  let h := free_entry h0
  if valid_addr h ptr then
    match get_block h.blocks ptr with
    | some c => { h with blocks := (fusion (set_free true h.blocks c) c).1 }
    | none => h
  else h

/-- Library function `memset(p, v, n)` on the payload bytes. -/
def memset (mem : Nat → Nat) (p v n : Nat) : Nat → Nat :=
  fun a => if p ≤ a ∧ a < p + n then v else mem a

/-- Library function `memcpy(dst, src, n)` on the payload bytes. -/
def memcpy (mem : Nat → Nat) (dst src n : Nat) : Nat → Nat :=
  fun a => if dst ≤ a ∧ a < dst + n then mem (src + (a - dst)) else mem a

/-- The first statements of `calloc`: `total = nitems * size; registro_calloc++;
add_log("calloc", total, (unsigned int)registro_calloc);`. -/
def calloc_entry (h0 : Heap) (nitems size : Nat) : Heap :=
  add_log { h0 with registro_calloc := h0.registro_calloc + 1 } "calloc"
    ((nitems * size) % SIZE_MOD) ((h0.registro_calloc + 1) % 2 ^ 32)

/-- Function `calloc(nitems, size)`. -/
def calloc (h0 : Heap) (nitems size : Nat) : Nat × Heap :=
  let total := (nitems * size) % SIZE_MOD
  let r := malloc (calloc_entry h0 nitems size) total
  if r.1 = 0 then (0, r.2)
  else (r.1, { r.2 with mem := memset r.2.mem r.1 0 total })

/-- The value of `b->size` once `malloc(size)` has run on `h`, for the block
`blk` at position `b` of the chain of `h`.  `malloc` writes the member `size`
of the block that `find_block` selects and of no other block that exists, and
the block selected keeps its position. -/
def size_after_malloc (h : Heap) (size b : Nat) (blk : s_block) : Nat :=
  if (find_block h.blocks h.method (align size)).1 = some b then
    match (malloc h size).2.blocks[b]? with
    | some blk1 => blk1.size
    | none => blk.size
  else blk.size

/-- The last part of `realloc`, from `void* new_ptr = malloc(size);` on, for the
block `blk` that `get_block(ptr)` found at position `b`. -/
def realloc_copy (h : Heap) (ptr size b : Nat) (blk : s_block) : Nat × Heap :=
  let r := malloc h size
  if r.1 = 0 then (0, r.2)
  else
    (r.1,
      free { r.2 with mem := memcpy r.2.mem r.1 ptr (size_after_malloc h size b blk) } ptr)

/-- The first statements of `realloc`: `registro_realloc++; add_log("realloc",
size, (unsigned int)registro_realloc);`. -/
def realloc_entry (h0 : Heap) (size : Nat) : Heap :=
  add_log { h0 with registro_realloc := h0.registro_realloc + 1 } "realloc" size
    ((h0.registro_realloc + 1) % 2 ^ 32)

/-- Function `realloc(ptr, size)`. -/
def realloc (h0 : Heap) (ptr size : Nat) : Nat × Heap :=
  let h := realloc_entry h0 size
  if ptr = 0 then malloc h size
  else if size = 0 then (0, free h ptr)
  else
    match get_block h.blocks ptr with
    | none => (0, h)
    | some b =>
      match h.blocks.drop b with
      | [] => (0, h)
      | blk :: rest =>
        if blk.size ≥ size then (ptr, h)
        else
          match rest with
          | n :: rest1 =>
            if n.free = true ∧ (blk.size + sizeof_s_block + n.size) % SIZE_MOD ≥ size then
              (ptr,
                { h with
                  blocks := h.blocks.take b ++
                    { blk with
                      size := (blk.size + (sizeof_s_block + n.size) % SIZE_MOD) % SIZE_MOD }
                      :: rest1 })
            else realloc_copy h ptr size b blk
          | [] => realloc_copy h ptr size b blk

/-- The state of a process that has not called the allocator yet. -/
def init (brk now : Nat) (regions : List (Option Nat)) (logmem : List Bool) : Heap :=
  { blocks := [], method := 0, registro_malloc := 0, registro_free := 0,
    registro_realloc := 0, registro_calloc := 0, log_head := [], mem := fun _ => 0,
    brk := brk, regions := regions, logmem := logmem, now := now }

/-- A heap with four used blocks of 8, 16, 24 and 8 bytes under First-Fit, the
region provider having one more region to give. -/
def example_heap : Heap :=
  { init 100000 0 [some 50000] [] with
    blocks := [⟨1000, 8, false, 1040⟩, ⟨2000, 16, false, 2040⟩, ⟨3000, 24, false, 3040⟩,
      ⟨4000, 8, false, 4040⟩] }

/-- The sum over the chain of `size + BLOCK_SIZE`. -/
def footprint (blocks : List s_block) : Nat :=
  (blocks.map (fun b => b.size + BLOCK_SIZE)).sum

/-- The heap `example_heap` at a moment when the region provider refuses the
next request. -/
def oom_heap : Heap := { example_heap with regions := [none] }


/-! ## Calls, counters and log records -/

/-- The four functions that count and log their invocations. -/
inductive Fn where
  | malloc
  | free
  | calloc
  | realloc
deriving DecidableEq, Repr

/-- A call of the public interface by the program. -/
inductive Op where
  | malloc (size : Nat)
  | free (ptr : Nat)
  | calloc (nitems size : Nat)
  | realloc (ptr size : Nat)
  | set_method (m : Int)
deriving DecidableEq, Repr

/-- The state after a call. -/
def step (h : Heap) : Op → Heap
  | Op.malloc size => (malloc h size).2
  | Op.free ptr => free h ptr
  | Op.calloc nitems size => (calloc h nitems size).2
  | Op.realloc ptr size => (realloc h ptr size).2
  | Op.set_method m => set_method h m

/-- The state after a sequence of calls. -/
def run : Heap → List Op → Heap
  | h, [] => h
  | h, op :: ops => run (step h op) ops

namespace Raw

/-- What a call does: it returns a value, it faults (an access outside the
mapped pages), or a loop is still running when the fuel is used up. -/
inductive Result (α : Type) where
  | ok (a : α)
  | fault
  | timeout
deriving DecidableEq, Repr

/-- Sequencing of two steps. -/
def Result.bind {α β : Type} (r : Result α) (f : α → Result β) : Result β :=
  match r with
  | Result.ok a => f a
  | Result.fault => Result.fault
  | Result.timeout => Result.timeout

instance : Monad Result where
  pure := Result.ok
  bind := Result.bind

/-- The address space: `bytes` is its content, `pages` the ranges (address,
length) that `mmap` has granted, `answers` what the coming calls of `mmap`
return (`none` is `MAP_FAILED`). -/
structure Space where
  bytes : Nat → Nat
  pages : List (Nat × Nat)
  answers : List (Option Nat)

/-- The state of the process: the address space, `brk` the value of `sbrk(0)`,
`now` the value of `time(NULL)`, the globals of `memory.c`, and `calls`, which
is not a variable of the program: it lists the functions entered so far, newest
first. -/
structure Machine where
  space : Space
  brk : Nat
  now : Nat
  base : Nat
  log_head : Nat
  method : Int
  registro_malloc : Int
  registro_free : Int
  registro_realloc : Int
  registro_calloc : Int
  calls : List Fn

/-- The process before its first call of the allocator. -/
def start (brk now : Nat) (answers : List (Option Nat)) : Machine :=
  { space := { bytes := fun _ => 0, pages := [], answers := answers }, brk := brk, now := now,
    base := 0, log_head := 0, method := 0, registro_malloc := 0, registro_free := 0,
    registro_realloc := 0, registro_calloc := 0, calls := [] }

/-- Offset of the member `size` of `struct s_block`. -/
def OFF_SIZE : Nat := 0

/-- Offset of the member `next` of `struct s_block`. -/
def OFF_NEXT : Nat := 8

/-- Offset of the member `prev` of `struct s_block`. -/
def OFF_PREV : Nat := 16

/-- Offset of the member `free` (an `int`) of `struct s_block`. -/
def OFF_FREE : Nat := 24

/-- Offset of the member `ptr` of `struct s_block`. -/
def OFF_PTR : Nat := 32

/-- Offset of the member `data` of `struct s_block`. -/
def OFF_DATA : Nat := 40

/-- Offset of the member `op` (10 bytes) of `t_log_entry`. -/
def LOG_OP : Nat := 0

/-- Offset of the member `size` of `t_log_entry`. -/
def LOG_SIZE : Nat := 16

/-- Offset of the member `timestamp` of `t_log_entry`. -/
def LOG_TIMESTAMP : Nat := 24

/-- Offset of the member `next` of `t_log_entry`. -/
def LOG_NEXT : Nat := 32

/-- Offset of the member `counter` (an `unsigned int`) of `t_log_entry`. -/
def LOG_COUNTER : Nat := 40

/-- The value of `sizeof(t_log_entry)`. -/
def sizeof_t_log_entry : Nat := 48

/-- The value of `n` bytes from address `a` on, least significant byte first. -/
def le_value (bytes : Nat → Nat) (a : Nat) : Nat → Nat
  | 0 => 0
  | n + 1 => bytes a % 256 + 256 * le_value bytes (a + 1) n

/-- The `n` bytes from `a` on lie in granted ranges; each step skips the range
that holds the first byte left. -/
def covered (pages : List (Nat × Nat)) : Nat → Nat → Nat → Bool
  | 0, _, n => decide (n = 0)
  | fuel + 1, a, n =>
    if n = 0 then true
    else
      match pages.find? (fun r => decide (r.1 ≤ a ∧ a < r.1 + r.2)) with
      | none => false
      | some r => covered pages fuel (r.1 + r.2) (a + n - (r.1 + r.2))

/-- Every one of the `n` bytes from `a` on is mapped. -/
def mapped (s : Space) (a n : Nat) : Bool := covered s.pages s.pages.length a n

/-- Reads an object of `n` bytes at `a`. -/
def load (s : Space) (a n : Nat) : Result Nat :=
  if mapped s a n then Result.ok (le_value s.bytes a n) else Result.fault

/-- Writes the value `v` as an object of `n` bytes at `a`. -/
def write (s : Space) (a n v : Nat) : Result Space :=
  if mapped s a n then
    Result.ok
      { s with bytes := fun x => if a ≤ x ∧ x < a + n then v / 256 ^ (x - a) % 256 else s.bytes x }
  else Result.fault

/-- The length that the kernel maps for a request of `len` bytes. -/
def page_up (len : Nat) : Nat := (len + (PAGESIZE - 1)) / PAGESIZE * PAGESIZE

/-- System call `mmap(NULL, len, ..., MAP_PRIVATE | MAP_ANONYMOUS, -1, 0)`: a
request of 0 bytes fails, otherwise the next answer decides; the granted pages
are filled with zeros. -/
def mmap (s : Space) (len : Nat) : Option Nat × Space :=
  if len = 0 then (none, s)
  else
    match s.answers with
    | [] => (none, s)
    | none :: rs => (none, { s with answers := rs })
    | some a :: rs =>
      (some a,
        { answers := rs
          pages := (a, page_up len) :: s.pages
          bytes := fun x => if a ≤ x ∧ x < a + page_up len then 0 else s.bytes x })

/-- The value of an `int` after the operation that gave `x` (two's complement). -/
def wrap_int (x : Int) : Int := (x + 2147483648) % 4294967296 - 2147483648

/-- The operator `++` on an `int` counter. -/
def incr (x : Int) : Int := wrap_int (x + 1)

/-- The conversion `(unsigned int)x`. -/
def to_unsigned (x : Int) : Nat := (x % 4294967296).toNat

/-- The ten bytes that `strncpy(dst, op, 9); dst[9] = 0` leaves in `dst`, as
one little-endian value. -/
def op_bytes (op : String) : Nat :=
  ((op.data.take 9).map (fun c => c.toNat % 256)).foldr (fun c acc => c + 256 * acc) 0

/-- Function `add_log(op, size, counter)`. -/
def add_log (m : Machine) (op : String) (size counter : Nat) : Result Machine :=
  match mmap m.space sizeof_t_log_entry with
  | (none, s1) => Result.ok { m with space := s1 }
  | (some e, s1) => do
    let s2 ← write s1 (e + LOG_OP) 10 (op_bytes op)
    let s3 ← write s2 (e + LOG_SIZE) 8 size
    let s4 ← write s3 (e + LOG_TIMESTAMP) 8 m.now
    let s5 ← write s4 (e + LOG_COUNTER) 4 counter
    let s6 ← write s5 (e + LOG_NEXT) 8 m.log_head
    Result.ok { m with space := s6, log_head := e }

/-- The loop of `case FIRST_FIT`: `b`, `*last`. -/
def first_fit_loop (s : Space) (size : Nat) : Nat → Nat → Nat → Result (Nat × Nat)
  | 0, _, _ => Result.timeout
  | fuel + 1, b, last =>
    if b = 0 then Result.ok (0, last)
    else do
      let fr ← load s (b + OFF_FREE) 4
      let sz ← if fr ≠ 0 then load s (b + OFF_SIZE) 8 else Result.ok 0
      if fr ≠ 0 ∧ sz ≥ size then Result.ok (b, last)
      else do
        let nx ← load s (b + OFF_NEXT) 8
        first_fit_loop s size fuel nx b

/-- The loop of `case BEST_FIT`: `b`, `dif`, `best`, `*last`. -/
def best_fit_loop (s : Space) (size : Nat) : Nat → Nat → Nat → Nat → Nat → Result (Nat × Nat)
  | 0, _, _, _, _ => Result.timeout
  | fuel + 1, b, dif, best, last =>
    if b = 0 then Result.ok (best, last)
    else do
      let fr ← load s (b + OFF_FREE) 4
      if fr ≠ 0 then do
        let sz ← load s (b + OFF_SIZE) 8
        if sz = size then Result.ok (b, last)
        else do
          let nx ← load s (b + OFF_NEXT) 8
          if sz > size ∧ sub64 sz size < dif then
            best_fit_loop s size fuel nx (sub64 sz size) b b
          else best_fit_loop s size fuel nx dif best b
      else do
        let nx ← load s (b + OFF_NEXT) 8
        best_fit_loop s size fuel nx dif best b

/-- The loop of `case WORST_FIT`: `b`, `max_size`, `worst`, `*last`. -/
def worst_fit_loop (s : Space) (size : Nat) : Nat → Nat → Nat → Nat → Nat → Result (Nat × Nat)
  | 0, _, _, _, _ => Result.timeout
  | fuel + 1, b, max_size, worst, last =>
    if b = 0 then Result.ok (worst, last)
    else do
      let fr ← load s (b + OFF_FREE) 4
      let sz ← if fr ≠ 0 then load s (b + OFF_SIZE) 8 else Result.ok 0
      let nx ← load s (b + OFF_NEXT) 8
      if fr ≠ 0 ∧ sz ≥ size ∧ sz > max_size then worst_fit_loop s size fuel nx sz b b
      else worst_fit_loop s size fuel nx max_size worst b

/-- Function `find_block(&last, size)`: the block returned (0 is `NULL`) and the
final value of `*last`. -/
def find_block (fuel : Nat) (s : Space) (method : Int) (base last size : Nat) :
    Result (Nat × Nat) :=
  if method = FIRST_FIT then first_fit_loop s size fuel base last
  else if method = BEST_FIT then best_fit_loop s size fuel base PAGESIZE 0 last
  else if method = WORST_FIT then worst_fit_loop s size fuel base 0 0 last
  else Result.ok (0, last)

/-- Function `split_block(b, s)`. -/
def split_block (s : Space) (b sz : Nat) : Result Space := do
  let bsize ← load s (b + OFF_SIZE) 8
  if bsize ≤ (sz + BLOCK_SIZE) % SIZE_MOD then Result.ok s
  else do
    let new := (b + OFF_DATA + sz) % SIZE_MOD
    let s1 ← write s (new + OFF_SIZE) 8 (sub64 (sub64 bsize sz) BLOCK_SIZE)
    let bnext ← load s1 (b + OFF_NEXT) 8
    let s2 ← write s1 (new + OFF_NEXT) 8 bnext
    let s3 ← write s2 (new + OFF_PREV) 8 b
    let s4 ← write s3 (new + OFF_FREE) 4 1
    let s5 ← write s4 (new + OFF_PTR) 8 ((new + OFF_DATA) % SIZE_MOD)
    let bnext2 ← load s5 (b + OFF_NEXT) 8
    let s6 ← if bnext2 ≠ 0 then write s5 (bnext2 + OFF_PREV) 8 new else Result.ok s5
    let s7 ← write s6 (b + OFF_SIZE) 8 sz
    write s7 (b + OFF_NEXT) 8 new

/-- The loop of `get_block`. -/
def get_block_loop (s : Space) (p : Nat) : Nat → Nat → Result Nat
  | 0, _ => Result.timeout
  | fuel + 1, b =>
    if b = 0 then Result.ok 0
    else do
      let bp ← load s (b + OFF_PTR) 8
      if bp = p then Result.ok b
      else do
        let nx ← load s (b + OFF_NEXT) 8
        get_block_loop s p fuel nx

/-- Function `get_block(p)`. -/
def get_block (fuel : Nat) (s : Space) (base p : Nat) : Result Nat :=
  get_block_loop s p fuel base

/-- Function `valid_addr(p)`. -/
def valid_addr (fuel : Nat) (s : Space) (base brk p : Nat) : Result Bool :=
  if base ≠ 0 then
    if p > base ∧ p < brk then do
      let b ← get_block fuel s base p
      if b = 0 then Result.ok false
      else do
        let bp ← load s (b + OFF_PTR) 8
        Result.ok (decide (p = bp))
    else Result.ok false
  else Result.ok false

/-- The first loop of `fusion`. -/
def fusion_back (s : Space) : Nat → Nat → Result Nat
  | 0, _ => Result.timeout
  | fuel + 1, c => do
    let pv ← load s (c + OFF_PREV) 8
    if pv = 0 then Result.ok c
    else do
      let fr ← load s (pv + OFF_FREE) 4
      if fr ≠ 0 then fusion_back s fuel pv else Result.ok c

/-- The second loop of `fusion`. -/
def fusion_fwd (c : Nat) : Nat → Space → Result Space
  | 0, _ => Result.timeout
  | fuel + 1, s => do
    let nx ← load s (c + OFF_NEXT) 8
    if nx = 0 then Result.ok s
    else do
      let fr ← load s (nx + OFF_FREE) 4
      if fr ≠ 0 then do
        let csize ← load s (c + OFF_SIZE) 8
        let nsize ← load s (nx + OFF_SIZE) 8
        let s1 ← write s (c + OFF_SIZE) 8 ((csize + (BLOCK_SIZE + nsize) % SIZE_MOD) % SIZE_MOD)
        let cn ← load s1 (c + OFF_NEXT) 8
        let nn ← load s1 (cn + OFF_NEXT) 8
        let s2 ← write s1 (c + OFF_NEXT) 8 nn
        let cn2 ← load s2 (c + OFF_NEXT) 8
        let s3 ← if cn2 ≠ 0 then write s2 (cn2 + OFF_PREV) 8 c else Result.ok s2
        fusion_fwd c fuel s3
      else Result.ok s

/-- Function `fusion(c)`: the block returned and the address space. -/
def fusion (fuel : Nat) (s : Space) (c : Nat) : Result (Nat × Space) := do
  let c1 ← fusion_back s fuel c
  let s1 ← fusion_fwd c1 fuel s
  Result.ok (c1, s1)

/-- Function `extend_heap(last, s)`: the block returned (0 is `NULL`) and the
address space. -/
def extend_heap (s : Space) (last sz : Nat) : Result (Nat × Space) :=
  match mmap s ((sz + BLOCK_SIZE) % SIZE_MOD) with
  | (none, s1) => Result.ok (0, s1)
  | (some b, s1) => do
    let s2 ← write s1 (b + OFF_SIZE) 8 sz
    let s3 ← write s2 (b + OFF_NEXT) 8 0
    let s4 ← write s3 (b + OFF_PREV) 8 last
    let s5 ← write s4 (b + OFF_PTR) 8 (b + OFF_DATA)
    let s6 ← if last ≠ 0 then write s5 (last + OFF_NEXT) 8 b else Result.ok s5
    let s7 ← write s6 (b + OFF_FREE) 4 0
    Result.ok (b, s7)

/-- Function `set_method(m)`. -/
def set_method (m : Machine) (v : Int) : Machine := { m with method := v }

/-- Function `malloc(size)`: the pointer returned (0 is `NULL`) and the state. -/
def malloc (fuel : Nat) (m0 : Machine) (size : Nat) : Result (Nat × Machine) := do
  let m1 := { m0 with registro_malloc := incr m0.registro_malloc, calls := Fn.malloc :: m0.calls }
  let sz := align size
  let m2 ← add_log m1 "malloc" sz (to_unsigned m1.registro_malloc)
  if m2.base ≠ 0 then do
    let r ← find_block fuel m2.space m2.method m2.base m2.base sz
    if r.1 ≠ 0 then do
      let bsize ← load m2.space (r.1 + OFF_SIZE) 8
      let s3 ← if sub64 bsize sz ≥ BLOCK_SIZE + 4 then split_block m2.space r.1 sz
        else Result.ok m2.space
      let s4 ← write s3 (r.1 + OFF_FREE) 4 0
      Result.ok ((r.1 + OFF_DATA) % SIZE_MOD, { m2 with space := s4 })
    else do
      let e ← extend_heap m2.space r.2 sz
      if e.1 = 0 then Result.ok (0, { m2 with space := e.2 })
      else Result.ok ((e.1 + OFF_DATA) % SIZE_MOD, { m2 with space := e.2 })
  else do
    let e ← extend_heap m2.space 0 sz
    if e.1 = 0 then Result.ok (0, { m2 with space := e.2 })
    else Result.ok ((e.1 + OFF_DATA) % SIZE_MOD, { m2 with space := e.2, base := e.1 })

/-- Function `free(ptr)`. -/
def free (fuel : Nat) (m0 : Machine) (ptr : Nat) : Result Machine := do
  let m1 := { m0 with registro_free := incr m0.registro_free, calls := Fn.free :: m0.calls }
  let m2 ← add_log m1 "free" 0 (to_unsigned m1.registro_free)
  let v ← valid_addr fuel m2.space m2.base m2.brk ptr
  if v then do
    let c ← get_block fuel m2.space m2.base ptr
    let s3 ← write m2.space (c + OFF_FREE) 4 1
    let r ← fusion fuel s3 c
    let pv ← load r.2 (r.1 + OFF_PREV) 8
    if pv = 0 then Result.ok { m2 with space := r.2, base := r.1 }
    else Result.ok { m2 with space := r.2 }
  else Result.ok m2

/-- Library function `memset(p, v, n)`. -/
def memset (s : Space) (p v n : Nat) : Result Space :=
  if n = 0 then Result.ok s
  else if mapped s p n then
    Result.ok { s with bytes := fun x => if p ≤ x ∧ x < p + n then v % 256 else s.bytes x }
  else Result.fault

/-- Library function `memcpy(dst, src, n)`. -/
def memcpy (s : Space) (dst src n : Nat) : Result Space :=
  if n = 0 then Result.ok s
  else if mapped s dst n ∧ mapped s src n then
    Result.ok
      { s with
        bytes := fun x => if dst ≤ x ∧ x < dst + n then s.bytes (src + (x - dst)) else s.bytes x }
  else Result.fault

/-- Function `calloc(nitems, size)`. -/
def calloc (fuel : Nat) (m0 : Machine) (nitems size : Nat) : Result (Nat × Machine) := do
  let total := (nitems * size) % SIZE_MOD
  let m1 := { m0 with registro_calloc := incr m0.registro_calloc, calls := Fn.calloc :: m0.calls }
  let m2 ← add_log m1 "calloc" total (to_unsigned m1.registro_calloc)
  let r ← malloc fuel m2 total
  if r.1 = 0 then Result.ok (0, r.2)
  else do
    let s3 ← memset r.2.space r.1 0 total
    Result.ok (r.1, { r.2 with space := s3 })

/-- Function `realloc(ptr, size)`. -/
def realloc (fuel : Nat) (m0 : Machine) (ptr size : Nat) : Result (Nat × Machine) := do
  let m1 := { m0 with registro_realloc := incr m0.registro_realloc,
                      calls := Fn.realloc :: m0.calls }
  let m2 ← add_log m1 "realloc" size (to_unsigned m1.registro_realloc)
  if ptr = 0 then malloc fuel m2 size
  else if size = 0 then do
    let m3 ← free fuel m2 ptr
    Result.ok (0, m3)
  else do
    let b ← get_block fuel m2.space m2.base ptr
    if b = 0 then Result.ok (0, m2)
    else do
      let bsize ← load m2.space (b + OFF_SIZE) 8
      if bsize ≥ size then Result.ok (ptr, m2)
      else do
        let nx ← load m2.space (b + OFF_NEXT) 8
        let nfree ← if nx ≠ 0 then load m2.space (nx + OFF_FREE) 4 else Result.ok 0
        let nsize ← if nx ≠ 0 ∧ nfree ≠ 0 then load m2.space (nx + OFF_SIZE) 8 else Result.ok 0
        if nx ≠ 0 ∧ nfree ≠ 0 ∧ (bsize + sizeof_s_block + nsize) % SIZE_MOD ≥ size then do
          let s3 ← write m2.space (b + OFF_SIZE) 8
            ((bsize + (sizeof_s_block + nsize) % SIZE_MOD) % SIZE_MOD)
          let bn ← load s3 (b + OFF_NEXT) 8
          let nn ← load s3 (bn + OFF_NEXT) 8
          let s4 ← write s3 (b + OFF_NEXT) 8 nn
          let bn2 ← load s4 (b + OFF_NEXT) 8
          let s5 ← if bn2 ≠ 0 then write s4 (bn2 + OFF_PREV) 8 b else Result.ok s4
          Result.ok (ptr, { m2 with space := s5 })
        else do
          let r ← malloc fuel m2 size
          if r.1 = 0 then Result.ok (0, r.2)
          else do
            let bsize2 ← load r.2.space (b + OFF_SIZE) 8
            let s3 ← memcpy r.2.space r.1 ptr bsize2
            let m4 ← free fuel { r.2 with space := s3 } ptr
            Result.ok (r.1, m4)

/-- A call made by the program that uses the allocator; `fill p v n` is the
program storing the byte `v` in the `n` bytes at `p`. -/
inductive Call where
  | malloc (size : Nat)
  | free (ptr : Nat)
  | calloc (nitems size : Nat)
  | realloc (ptr size : Nat)
  | set_method (v : Int)
  | fill (p v n : Nat)
deriving DecidableEq, Repr

/-- The state after a call. -/
def step (fuel : Nat) (m : Machine) : Call → Result Machine
  | Call.malloc size => (malloc fuel m size).bind (fun r => Result.ok r.2)
  | Call.free ptr => free fuel m ptr
  | Call.calloc nitems size => (calloc fuel m nitems size).bind (fun r => Result.ok r.2)
  | Call.realloc ptr size => (realloc fuel m ptr size).bind (fun r => Result.ok r.2)
  | Call.set_method v => Result.ok (set_method m v)
  | Call.fill p v n => (memset m.space p v n).bind (fun s => Result.ok { m with space := s })

/-- The state after a sequence of calls. -/
def run (fuel : Nat) : Machine → List Call → Result Machine
  | m, [] => Result.ok m
  | m, c :: cs => (step fuel m c).bind (fun m1 => run fuel m1 cs)

/-- The chain read from the block `b` through the `next` members: address,
`size`, `free` and `next` of each block, at most `fuel` blocks. -/
def chain (s : Space) : Nat → Nat → List (Nat × Nat × Nat × Nat)
  | 0, _ => []
  | fuel + 1, b =>
    if b = 0 then []
    else
      match load s (b + OFF_SIZE) 8, load s (b + OFF_FREE) 4, load s (b + OFF_NEXT) 8 with
      | Result.ok sz, Result.ok fr, Result.ok nx => (b, sz, fr, nx) :: chain s fuel nx
      | _, _, _ => []

/-- The log read from the record `e` through the `next` members: for each
record the list of its address, the ten bytes of `op` as one value, `size`,
`counter` and `next`; at most `fuel` records. -/
def log_records (s : Space) : Nat → Nat → List (List Nat)
  | 0, _ => []
  | fuel + 1, e =>
    if e = 0 then []
    else
      match load s (e + LOG_OP) 10, load s (e + LOG_SIZE) 8, load s (e + LOG_COUNTER) 4,
        load s (e + LOG_NEXT) 8 with
      | Result.ok op, Result.ok sz, Result.ok ct, Result.ok nx =>
        [e, op, sz, ct, nx] :: log_records s fuel nx
      | _, _, _, _ => []

/-- What a run gives for an observation of the final state. -/
def observe {β : Type} (f : Machine → β) (r : Result Machine) : Result β :=
  r.bind (fun m => Result.ok (f m))

/-- The counter that a function increments when it is entered. -/
def counter (f : Fn) (m : Machine) : Int :=
  match f with
  | Fn.malloc => m.registro_malloc
  | Fn.free => m.registro_free
  | Fn.calloc => m.registro_calloc
  | Fn.realloc => m.registro_realloc

/-- The address that the `k`-th log record gets in the scenarios below. -/
def log_page (k : Nat) : Option Nat := some (1000000 + 4096 * k)

/-- The answers of `mmap` in the scenarios with one region for blocks: the page
at 4096 for the first block, the other pages for log records. -/
def one_region_answers : List (Option Nat) :=
  [log_page 0, some 4096] ++ (List.range 40).map (fun i => log_page (i + 1))

/-- Five blocks of 8 bytes are split off one region; the first absorbs three of
them in place through `realloc`, is freed, and `malloc(128)` splits it. -/
def size_calls : List Call :=
  [Call.malloc 3000, Call.free 4136, Call.malloc 8, Call.malloc 8, Call.malloc 8, Call.malloc 8,
    Call.malloc 8, Call.free 4184, Call.realloc 4136 16, Call.free 4232, Call.realloc 4136 72,
    Call.free 4280, Call.realloc 4136 128, Call.free 4136, Call.malloc 128]

/-- Eight blocks of 8 bytes are split off one region; the first absorbs six of
them in place through `realloc` and is freed. -/
def link_calls : List Call :=
  [Call.malloc 4000, Call.free 4136, Call.malloc 8, Call.malloc 8, Call.malloc 8, Call.malloc 8,
    Call.malloc 8, Call.malloc 8, Call.malloc 8, Call.malloc 8, Call.free 4184,
    Call.realloc 4136 16, Call.free 4232, Call.realloc 4136 72, Call.free 4280,
    Call.realloc 4136 128, Call.free 4328, Call.realloc 4136 184, Call.free 4376,
    Call.realloc 4136 240, Call.free 4424, Call.realloc 4136 296, Call.free 4136]

/-- The answers of `mmap` in the scenario of `copy_calls`: regions for blocks at
4096, 12288 and 8192, the other pages for log records. -/
def copy_answers : List (Option Nat) :=
  [log_page 0, some 4096, log_page 1, some 12288, log_page 2, log_page 3, log_page 4, some 8192,
    log_page 5, log_page 6, log_page 7, log_page 8]

/-- Under Best-Fit two blocks of 4000 bytes are allocated and freed, `malloc(3000)`
returns 8232 in a third region, and the program fills its 3000 bytes with 171. -/
def copy_calls : List Call :=
  [Call.set_method 1, Call.malloc 4000, Call.malloc 4000, Call.free 4136, Call.free 12328,
    Call.malloc 3000, Call.fill 8232 171 3000]

/-- The answers of `mmap` in the scenario of `log_calls`: consecutive pages, in
the order of the calls of `mmap`. -/
def log_answers : List (Option Nat) :=
  [some 4096, some 8192, some 12288, some 16384, some 20480, some 24576, some 28672]

/-- Two blocks of 4000 bytes are allocated and freed, then `malloc(4056)`. -/
def log_calls : List Call :=
  [Call.malloc 4000, Call.malloc 4000, Call.free 8232, Call.free 16424, Call.malloc 4056]

end Raw


theorem sub64_eq {a b : Nat} (hb : b ≤ a) (ha : a < SIZE_MOD) : sub64 a b = a - b := by
  unfold sub64
  have hb2 : b < SIZE_MOD := lt_of_le_of_lt hb ha
  rw [Nat.mod_eq_of_lt ha, Nat.mod_eq_of_lt hb2]
  have h1 : a + SIZE_MOD - b = (a - b) + SIZE_MOD := by omega
  rw [h1, Nat.add_mod_right, Nat.mod_eq_of_lt (by omega)]

theorem align_ge {x : Nat} (hx : x + 8 ≤ SIZE_MOD) : x ≤ align x := by
  unfold align
  split
  · omega
  · have h1 : (x - 1) >>> 3 <<< 3 = (x - 1) / 8 * 8 := by
      rw [Nat.shiftLeft_eq, Nat.shiftRight_eq_div_pow]
    rw [h1]
    have h2 : (x - 1) / 8 * 8 + 8 < SIZE_MOD ∨ (x - 1) / 8 * 8 + 8 = SIZE_MOD := by
      unfold SIZE_MOD at *
      omega
    rcases h2 with h2 | h2
    · rw [Nat.mod_eq_of_lt h2]
      omega
    · exfalso
      unfold SIZE_MOD at *
      omega

/-! ## `find_block`: the three scans -/

theorem first_fit_loop_some (size : Nat) :
    ∀ (bs : List s_block) (i last k : Nat), (first_fit_loop size bs i last).1 = some k →
      ∃ j b, k = i + j ∧ bs[j]? = some b ∧ b.free = true ∧ size ≤ b.size ∧
        ∀ j1 c, j1 < j → bs[j1]? = some c → ¬ (c.free = true ∧ size ≤ c.size) := by
  intro bs
  induction bs with
  | nil => intro i last k h; simp [first_fit_loop] at h
  | cons b rest ih =>
    intro i last k h
    unfold first_fit_loop at h
    by_cases hb : (b.free && decide (b.size ≥ size)) = true
    · rw [if_pos hb] at h
      simp only [Bool.and_eq_true, decide_eq_true_eq] at hb
      refine ⟨0, b, ?_, by simp, hb.1, hb.2, ?_⟩
      · simpa using h.symm
      · intro j1 c hj; omega
    · rw [if_neg hb] at h
      obtain ⟨j, b1, hk, hget, hfree, hsz, hmin⟩ := ih (i + 1) i k h
      refine ⟨j + 1, b1, by omega, by simpa using hget, hfree, hsz, ?_⟩
      intro j1 c hj hc
      cases j1 with
      | zero =>
        simp only [List.getElem?_cons_zero, Option.some.injEq] at hc
        subst hc
        simpa using hb
      | succ j2 =>
        simp only [List.getElem?_cons_succ] at hc
        exact hmin j2 c (by omega) hc

theorem first_fit_loop_none (size : Nat) :
    ∀ (bs : List s_block) (i last : Nat), (first_fit_loop size bs i last).1 = none ↔
      ∀ c ∈ bs, ¬ (c.free = true ∧ size ≤ c.size) := by
  intro bs
  induction bs with
  | nil => intro i last; simp [first_fit_loop]
  | cons b rest ih =>
    intro i last
    unfold first_fit_loop
    by_cases hb : (b.free && decide (b.size ≥ size)) = true
    · rw [if_pos hb]
      simp only [Bool.and_eq_true, decide_eq_true_eq] at hb
      simp only [reduceCtorEq, List.mem_cons, forall_eq_or_imp, false_iff, not_and]
      intro hc
      exact absurd hb.2 (hc hb.1)
    · rw [if_neg hb, ih (i + 1) i]
      simp only [Bool.and_eq_true, decide_eq_true_eq] at hb
      simp only [List.mem_cons, forall_eq_or_imp]
      exact ⟨fun h => ⟨hb, h⟩, fun h => h.2⟩

theorem best_fit_loop_found (size : Nat) :
    ∀ (bs : List s_block) (i dif : Nat) (best : Option Nat) (last k : Nat),
      (best_fit_loop size bs i dif best last).1 = some k →
        best = some k ∨
          ∃ j b, k = i + j ∧ bs[j]? = some b ∧ b.free = true ∧ size ≤ b.size := by
  intro bs
  induction bs with
  | nil => intro i dif best last k h; left; simpa [best_fit_loop] using h
  | cons b rest ih =>
    intro i dif best last k h
    unfold best_fit_loop at h
    have lift : ∀ (bst : Option Nat),
        (bst = some k ∨ ∃ j b1, k = i + 1 + j ∧ rest[j]? = some b1 ∧ b1.free = true ∧
          size ≤ b1.size) → (bst = some k ∨ ∃ j b1, k = i + j ∧ (b :: rest)[j]? = some b1 ∧
            b1.free = true ∧ size ≤ b1.size) := by
      intro bst hx
      rcases hx with hx | ⟨j, b1, hk, hget, hf, hs⟩
      · exact Or.inl hx
      · exact Or.inr ⟨j + 1, b1, by omega, by simpa using hget, hf, hs⟩
    by_cases hfree : b.free = true
    · rw [if_pos hfree] at h
      by_cases heq : b.size = size
      · rw [if_pos heq] at h
        exact Or.inr ⟨0, b, by simpa using h.symm, by simp, hfree, by omega⟩
      · rw [if_neg heq] at h
        by_cases hlt : b.size > size ∧ sub64 b.size size < dif
        · rw [if_pos hlt] at h
          rcases lift _ (ih _ _ _ _ _ h) with hx | hx
          · right
            have hki : k = i := by simpa using hx.symm
            exact ⟨0, b, by omega, by simp, hfree, by omega⟩
          · exact Or.inr hx
        · rw [if_neg hlt] at h
          exact lift _ (ih _ _ _ _ _ h)
    · rw [if_neg hfree] at h
      exact lift _ (ih _ _ _ _ _ h)

theorem best_fit_loop_some (size : Nat) :
    ∀ (bs : List s_block) (i dif : Nat) (best : Option Nat) (last k : Nat),
      (∀ c ∈ bs, c.size < SIZE_MOD) → 0 < dif →
      (best_fit_loop size bs i dif best last).1 = some k →
        (best = some k ∧ ∀ c ∈ bs, c.free = true → size ≤ c.size → dif ≤ c.size - size) ∨
          ∃ j b, k = i + j ∧ bs[j]? = some b ∧ b.free = true ∧ size ≤ b.size ∧
            b.size - size < dif ∧
            (∀ c ∈ bs, c.free = true → size ≤ c.size → b.size ≤ c.size) ∧
            (∀ j1 c, j1 < j → bs[j1]? = some c → c.free = true → c.size ≠ b.size) := by
  intro bs
  induction bs with
  | nil =>
    intro i dif best last k _ _ h
    left
    exact ⟨by simpa [best_fit_loop] using h, by simp⟩
  | cons b rest ih =>
    intro i dif best last k hbound hdif h
    have hbb : b.size < SIZE_MOD := hbound b (List.mem_cons_self _ _)
    have hbr : ∀ c ∈ rest, c.size < SIZE_MOD := fun c hc => hbound c (List.mem_cons_of_mem _ hc)
    unfold best_fit_loop at h
    -- the head is passed over without changing `dif` and `best`
    have skip : (b.free = true → size ≤ b.size → dif ≤ b.size - size) →
        (best_fit_loop size rest (i + 1) dif best i).1 = some k →
        (best = some k ∧ ∀ c ∈ b :: rest, c.free = true → size ≤ c.size → dif ≤ c.size - size) ∨
          ∃ j b1, k = i + j ∧ (b :: rest)[j]? = some b1 ∧ b1.free = true ∧ size ≤ b1.size ∧
            b1.size - size < dif ∧
            (∀ c ∈ b :: rest, c.free = true → size ≤ c.size → b1.size ≤ c.size) ∧
            (∀ j1 c, j1 < j → (b :: rest)[j1]? = some c → c.free = true → c.size ≠ b1.size) := by
      intro hskip hrec
      rcases ih (i + 1) dif best i k hbr hdif hrec with ⟨hbest, hall⟩ | ⟨j, b1, hk, hget, hf, hs, hd, hmin, hfirst⟩
      · left
        refine ⟨hbest, ?_⟩
        intro c hc
        rcases List.mem_cons.mp hc with rfl | hc
        · exact hskip
        · exact hall c hc
      · right
        refine ⟨j + 1, b1, by omega, by simpa using hget, hf, hs, hd, ?_, ?_⟩
        · intro c hc hcf hcs
          rcases List.mem_cons.mp hc with rfl | hc
          · have := hskip hcf hcs
            omega
          · exact hmin c hc hcf hcs
        · intro j1 c hj hc hcf
          cases j1 with
          | zero =>
            simp only [List.getElem?_cons_zero, Option.some.injEq] at hc
            subst hc
            intro hcontra
            have := hskip hcf (by omega)
            omega
          | succ j2 =>
            simp only [List.getElem?_cons_succ] at hc
            exact hfirst j2 c (by omega) hc hcf
    by_cases hfree : b.free = true
    · rw [if_pos hfree] at h
      by_cases heq : b.size = size
      · rw [if_pos heq] at h
        right
        refine ⟨0, b, by simpa using h.symm, by simp, hfree, by omega, by omega, ?_, ?_⟩
        · intro c _ _ hcs; omega
        · intro j1 c hj; omega
      · rw [if_neg heq] at h
        by_cases hlt : b.size > size ∧ sub64 b.size size < dif
        · rw [if_pos hlt] at h
          have hsub : sub64 b.size size = b.size - size := sub64_eq (by omega) hbb
          rw [hsub] at h hlt
          rcases ih (i + 1) (b.size - size) (some i) i k hbr (by omega) h with
            ⟨hbest, hall⟩ | ⟨j, b1, hk, hget, hf, hs, hd, hmin, hfirst⟩
          · right
            have hki : k = i := by simpa using hbest.symm
            refine ⟨0, b, by omega, by simp, hfree, by omega, hlt.2, ?_, ?_⟩
            · intro c hc hcf hcs
              rcases List.mem_cons.mp hc with rfl | hc
              · exact le_refl _
              · have := hall c hc hcf hcs
                omega
            · intro j1 c hj; omega
          · right
            refine ⟨j + 1, b1, by omega, by simpa using hget, hf, hs, by omega, ?_, ?_⟩
            · intro c hc hcf hcs
              rcases List.mem_cons.mp hc with rfl | hc
              · omega
              · exact hmin c hc hcf hcs
            · intro j1 c hj hc hcf
              cases j1 with
              | zero =>
                simp only [List.getElem?_cons_zero, Option.some.injEq] at hc
                subst hc
                omega
              | succ j2 =>
                simp only [List.getElem?_cons_succ] at hc
                exact hfirst j2 c (by omega) hc hcf
        · rw [if_neg hlt] at h
          refine skip ?_ h
          intro _ hs
          have hgt : b.size > size := by omega
          have hsub : sub64 b.size size = b.size - size := sub64_eq (by omega) hbb
          rw [hsub] at hlt
          by_contra hcon
          exact hlt ⟨hgt, by omega⟩
    · rw [if_neg hfree] at h
      exact skip (fun hf => absurd hf hfree) h

theorem worst_fit_loop_some (size : Nat) :
    ∀ (bs : List s_block) (i max_size : Nat) (worst : Option Nat) (last k : Nat),
      (worst_fit_loop size bs i max_size worst last).1 = some k →
        (worst = some k ∧ ∀ c ∈ bs, c.free = true → size ≤ c.size → c.size ≤ max_size) ∨
          ∃ j b, k = i + j ∧ bs[j]? = some b ∧ b.free = true ∧ size ≤ b.size ∧
            max_size < b.size ∧
            (∀ c ∈ bs, c.free = true → size ≤ c.size → c.size ≤ b.size) ∧
            (∀ j1 c, j1 < j → bs[j1]? = some c → c.free = true → size ≤ c.size →
              c.size < b.size) := by
  intro bs
  induction bs with
  | nil =>
    intro i max_size worst last k h
    left
    exact ⟨by simpa [worst_fit_loop] using h, by simp⟩
  | cons b rest ih =>
    intro i max_size worst last k h
    unfold worst_fit_loop at h
    have skip : (b.free = true → size ≤ b.size → b.size ≤ max_size) →
        (worst_fit_loop size rest (i + 1) max_size worst i).1 = some k →
        (worst = some k ∧ ∀ c ∈ b :: rest, c.free = true → size ≤ c.size → c.size ≤ max_size) ∨
          ∃ j b1, k = i + j ∧ (b :: rest)[j]? = some b1 ∧ b1.free = true ∧ size ≤ b1.size ∧
            max_size < b1.size ∧
            (∀ c ∈ b :: rest, c.free = true → size ≤ c.size → c.size ≤ b1.size) ∧
            (∀ j1 c, j1 < j → (b :: rest)[j1]? = some c → c.free = true → size ≤ c.size →
              c.size < b1.size) := by
      intro hskip hrec
      rcases ih (i + 1) max_size worst i k hrec with
        ⟨hw, hall⟩ | ⟨j, b1, hk, hget, hf, hs, hd, hmax, hfirst⟩
      · left
        refine ⟨hw, ?_⟩
        intro c hc
        rcases List.mem_cons.mp hc with rfl | hc
        · exact hskip
        · exact hall c hc
      · right
        refine ⟨j + 1, b1, by omega, by simpa using hget, hf, hs, hd, ?_, ?_⟩
        · intro c hc hcf hcs
          rcases List.mem_cons.mp hc with rfl | hc
          · have := hskip hcf hcs
            omega
          · exact hmax c hc hcf hcs
        · intro j1 c hj hc hcf hcs
          cases j1 with
          | zero =>
            simp only [List.getElem?_cons_zero, Option.some.injEq] at hc
            subst hc
            have := hskip hcf hcs
            omega
          | succ j2 =>
            simp only [List.getElem?_cons_succ] at hc
            exact hfirst j2 c (by omega) hc hcf hcs
    by_cases hq : (b.free && decide (b.size ≥ size)) = true
    · rw [if_pos hq] at h
      simp only [Bool.and_eq_true, decide_eq_true_eq] at hq
      by_cases hgt : b.size > max_size
      · rw [if_pos hgt] at h
        rcases ih (i + 1) b.size (some i) i k h with
          ⟨hw, hall⟩ | ⟨j, b1, hk, hget, hf, hs, hd, hmax, hfirst⟩
        · right
          have hki : k = i := by simpa using hw.symm
          refine ⟨0, b, by omega, by simp, hq.1, hq.2, hgt, ?_, ?_⟩
          · intro c hc hcf hcs
            rcases List.mem_cons.mp hc with rfl | hc
            · exact le_refl _
            · exact hall c hc hcf hcs
          · intro j1 c hj; omega
        · right
          refine ⟨j + 1, b1, by omega, by simpa using hget, hf, hs, by omega, ?_, ?_⟩
          · intro c hc hcf hcs
            rcases List.mem_cons.mp hc with rfl | hc
            · omega
            · exact hmax c hc hcf hcs
          · intro j1 c hj hc hcf hcs
            cases j1 with
            | zero =>
              simp only [List.getElem?_cons_zero, Option.some.injEq] at hc
              subst hc
              omega
            | succ j2 =>
              simp only [List.getElem?_cons_succ] at hc
              exact hfirst j2 c (by omega) hc hcf hcs
      · rw [if_neg hgt] at h
        exact skip (fun _ _ => by omega) h
    · rw [if_neg hq] at h
      simp only [Bool.and_eq_true, decide_eq_true_eq, not_and] at hq
      exact skip (fun hf hs => absurd hs (hq hf)) h

theorem worst_fit_loop_none (size : Nat) :
    ∀ (bs : List s_block) (i max_size : Nat) (worst : Option Nat) (last : Nat),
      (worst_fit_loop size bs i max_size worst last).1 = none ↔
        (worst = none ∧ ∀ c ∈ bs, c.free = true → size ≤ c.size → c.size ≤ max_size) := by
  intro bs
  induction bs with
  | nil => intro i max_size worst last; simp [worst_fit_loop]
  | cons b rest ih =>
    intro i max_size worst last
    unfold worst_fit_loop
    by_cases hq : (b.free && decide (b.size ≥ size)) = true
    · rw [if_pos hq]
      simp only [Bool.and_eq_true, decide_eq_true_eq] at hq
      by_cases hgt : b.size > max_size
      · rw [if_pos hgt, ih]
        constructor
        · intro hx
          simp at hx
        · intro hx
          have := hx.2 b (List.mem_cons_self _ _) hq.1 hq.2
          omega
      · rw [if_neg hgt, ih]
        simp only [List.mem_cons, forall_eq_or_imp]
        constructor
        · intro hx
          exact ⟨hx.1, fun _ _ => by omega, hx.2⟩
        · intro hx
          exact ⟨hx.1, hx.2.2⟩
    · rw [if_neg hq, ih]
      simp only [Bool.and_eq_true, decide_eq_true_eq, not_and] at hq
      simp only [List.mem_cons, forall_eq_or_imp]
      constructor
      · intro hx
        exact ⟨hx.1, fun hf hs => absurd hs (hq hf), hx.2⟩
      · intro hx
        exact ⟨hx.1, hx.2.2⟩


/-! ## Positions in a chain -/

theorem chain_split_at {l : List s_block} {i : Nat} {x : s_block} (h : l[i]? = some x) :
    ∃ pre post, l = pre ++ x :: post ∧ pre.length = i := by
  induction l generalizing i with
  | nil => simp at h
  | cons a t ih =>
    cases i with
    | zero =>
      simp only [List.getElem?_cons_zero, Option.some.injEq] at h
      exact ⟨[], t, by simp [h], rfl⟩
    | succ j =>
      simp only [List.getElem?_cons_succ] at h
      obtain ⟨pre, post, hl, hlen⟩ := ih h
      exact ⟨a :: pre, post, by simp [hl], by simp [hlen]⟩

theorem getElem?_at (pre post : List s_block) (x : s_block) :
    (pre ++ x :: post)[pre.length]? = some x := by
  induction pre with
  | nil => simp
  | cons a t ih => simpa using ih

theorem drop_at (pre post : List s_block) (x : s_block) :
    (pre ++ x :: post).drop pre.length = x :: post := by
  simp

theorem take_at (pre post : List s_block) (x : s_block) :
    (pre ++ x :: post).take pre.length = pre := by
  simp

theorem set_free_at (v : Bool) (pre post : List s_block) (x : s_block) :
    set_free v (pre ++ x :: post) pre.length = pre ++ { x with free := v } :: post := by
  induction pre with
  | nil => simp [set_free]
  | cons a t ih => simp [set_free, ih]

theorem get_block_loop_ge (p : Nat) :
    ∀ (bs : List s_block) (i k : Nat), get_block_loop p bs i = some k →
      ∃ j b, k = i + j ∧ bs[j]? = some b ∧ b.ptr = p ∧
        ∀ j1 c, j1 < j → bs[j1]? = some c → c.ptr ≠ p := by
  intro bs
  induction bs with
  | nil => intro i k h; simp [get_block_loop] at h
  | cons a t ih =>
    intro i k h
    unfold get_block_loop at h
    by_cases hp : a.ptr = p
    · rw [if_pos hp] at h
      refine ⟨0, a, by simpa using h.symm, by simp, hp, ?_⟩
      intro j1 c hj; omega
    · rw [if_neg hp] at h
      obtain ⟨j, b, hk, hget, hb, hmin⟩ := ih (i + 1) k h
      refine ⟨j + 1, b, by omega, by simpa using hget, hb, ?_⟩
      intro j1 c hj hc
      cases j1 with
      | zero =>
        simp only [List.getElem?_cons_zero, Option.some.injEq] at hc
        subst hc
        exact hp
      | succ j2 =>
        simp only [List.getElem?_cons_succ] at hc
        exact hmin j2 c (by omega) hc

@[simp] theorem add_log_blocks (h : Heap) (op : String) (s c : Nat) :
    (add_log h op s c).blocks = h.blocks := by
  unfold add_log; split <;> rfl

@[simp] theorem add_log_method (h : Heap) (op : String) (s c : Nat) :
    (add_log h op s c).method = h.method := by
  unfold add_log; split <;> rfl

@[simp] theorem add_log_regions (h : Heap) (op : String) (s c : Nat) :
    (add_log h op s c).regions = h.regions := by
  unfold add_log; split <;> rfl

@[simp] theorem add_log_brk (h : Heap) (op : String) (s c : Nat) :
    (add_log h op s c).brk = h.brk := by
  unfold add_log; split <;> rfl

@[simp] theorem add_log_mem (h : Heap) (op : String) (s c : Nat) :
    (add_log h op s c).mem = h.mem := by
  unfold add_log; split <;> rfl

theorem find_block_found (blocks : List s_block) (m : Int) (s b : Nat)
    (h : (find_block blocks m s).1 = some b) :
    ∃ blk, blocks[b]? = some blk ∧ blk.free = true ∧ s ≤ blk.size := by
  unfold find_block at h
  split at h
  · obtain ⟨j, blk, hk, hget, hf, hs, _⟩ := first_fit_loop_some s blocks 0 0 b h
    have : b = j := by omega
    subst this
    exact ⟨blk, hget, hf, hs⟩
  · split at h
    · rcases best_fit_loop_found s blocks 0 PAGESIZE none 0 b h with hx | ⟨j, blk, hk, hget, hf, hs⟩
      · simp at hx
      · have : b = j := by omega
        subst this
        exact ⟨blk, hget, hf, hs⟩
    · split at h
      · rcases worst_fit_loop_some s blocks 0 0 none 0 b h with
          ⟨hx, _⟩ | ⟨j, blk, hk, hget, hf, hs, _⟩
        · simp at hx
        · have : b = j := by omega
          subst this
          exact ⟨blk, hget, hf, hs⟩
      · simp at h

theorem split_block_at (pre post : List s_block) (blk : s_block) (s : Nat) :
    split_block (pre ++ blk :: post) pre.length s =
      if blk.size ≤ (s + BLOCK_SIZE) % SIZE_MOD then pre ++ blk :: post
      else pre ++ { blk with size := s } ::
        { addr := blk.data + s, size := sub64 (sub64 blk.size s) BLOCK_SIZE, free := true,
          ptr := blk.data + s + offsetof_data } :: post := by
  unfold split_block
  rw [drop_at, take_at]

@[simp] theorem malloc_entry_blocks (h0 : Heap) (size : Nat) :
    (malloc_entry h0 size).blocks = h0.blocks := by simp [malloc_entry]

@[simp] theorem malloc_entry_method (h0 : Heap) (size : Nat) :
    (malloc_entry h0 size).method = h0.method := by simp [malloc_entry]

@[simp] theorem malloc_entry_regions (h0 : Heap) (size : Nat) :
    (malloc_entry h0 size).regions = h0.regions := by simp [malloc_entry]

@[simp] theorem malloc_entry_brk (h0 : Heap) (size : Nat) :
    (malloc_entry h0 size).brk = h0.brk := by simp [malloc_entry]

@[simp] theorem malloc_entry_mem (h0 : Heap) (size : Nat) :
    (malloc_entry h0 size).mem = h0.mem := by simp [malloc_entry]

theorem malloc_returns_block (h0 : Heap) (n p : Nat) (h1 : Heap)
    (hm : malloc h0 n = (p, h1)) (hp : p ≠ 0) :
    ∃ (k : Nat) (blk : s_block), h1.blocks[k]? = some blk ∧ blk.data = p ∧ blk.free = false ∧
      align n ≤ blk.size := by
  unfold malloc at hm
  simp only [malloc_entry_blocks, malloc_entry_method] at hm
  split at hm
  · split at hm
    · rename_i b last hfb
      have hfb1 : (find_block h0.blocks h0.method (align n)).1 = some b := by rw [hfb]
      obtain ⟨blk, hget, hfree, hsz⟩ := find_block_found _ _ _ _ hfb1
      rw [hget] at hm
      simp only [Prod.mk.injEq] at hm
      obtain ⟨pre, post, hl, hlen⟩ := chain_split_at hget
      subst hlen
      obtain ⟨hp1, hh1⟩ := hm
      subst hh1
      by_cases hsplit : sub64 blk.size (align n) ≥ BLOCK_SIZE + 4
      · by_cases hle : blk.size ≤ (align n + BLOCK_SIZE) % SIZE_MOD
        · refine ⟨pre.length, { blk with free := false }, ?_, hp1, rfl, hsz⟩
          simp only [hl, split_block_at, if_pos hsplit, if_pos hle, set_free_at, getElem?_at]
        · refine ⟨pre.length, { blk with size := align n, free := false }, ?_, hp1, rfl,
            le_refl _⟩
          simp only [hl, split_block_at, if_pos hsplit, if_neg hle, set_free_at, getElem?_at]
      · refine ⟨pre.length, { blk with free := false }, ?_, hp1, rfl, hsz⟩
        simp only [hl, if_neg hsplit, set_free_at, getElem?_at]
    · rename_i last hfb
      unfold extend_heap at hm
      simp only [malloc_entry_regions, malloc_entry_blocks] at hm
      rcases hreg : h0.regions with _ | ⟨_ | a, rs⟩
      · simp only [hreg, Prod.mk.injEq] at hm
        exact absurd hm.1.symm hp
      · simp only [hreg, Prod.mk.injEq] at hm
        exact absurd hm.1.symm hp
      · simp only [hreg, Prod.mk.injEq] at hm
        obtain ⟨hp1, hh1⟩ := hm
        subst hh1
        refine ⟨(h0.blocks.take (last + 1)).length,
          { addr := a, size := align n, free := false, ptr := a + offsetof_data }, ?_, hp1, rfl,
          le_refl _⟩
        exact getElem?_at _ [] _
  · unfold extend_heap at hm
    simp only [malloc_entry_regions, malloc_entry_blocks] at hm
    rcases hreg : h0.regions with _ | ⟨_ | a, rs⟩
    · simp only [hreg, Prod.mk.injEq] at hm
      exact absurd hm.1.symm hp
    · simp only [hreg, Prod.mk.injEq] at hm
      exact absurd hm.1.symm hp
    · simp only [hreg, Prod.mk.injEq] at hm
      obtain ⟨hp1, hh1⟩ := hm
      subst hh1
      exact ⟨0, { addr := a, size := align n, free := false, ptr := a + offsetof_data }, rfl,
        hp1, rfl, le_refl _⟩

/-! ## Claims on the selection policies -/

/-- C4 (Best-Fit reuses a qualifying free block): the code does not.  The scan
starts with `dif = PAGESIZE`, so a free block whose slack is 4096 bytes or more is
never tracked: after `malloc(8192)`, `free` and `malloc(8)` under Best-Fit the
only block is free with size 8192, `find_block` answers `NULL` for a request of
8 bytes and `malloc` asks for a second region, while First-Fit finds the block. -/
theorem C4_best_fit_misses_block_with_page_slack :
    (free (malloc (malloc_control (init 100000 0 [some 4096, some 20000] []) 1) 8192).2 4136).blocks
        = [⟨4096, 8192, true, 4136⟩] ∧
      (find_block [⟨4096, 8192, true, 4136⟩] BEST_FIT 8).1 = none ∧
      (find_block [⟨4096, 8192, true, 4136⟩] FIRST_FIT 8).1 = some 0 ∧
      (malloc (free (malloc (malloc_control (init 100000 0 [some 4096, some 20000] []) 1)
        8192).2 4136) 8).2.blocks = [⟨4096, 8192, true, 4136⟩, ⟨20000, 8, false, 20040⟩] ∧
      (malloc (free (malloc (malloc_control (init 100000 0 [some 4096, some 20000] []) 1)
        8192).2 4136) 8).2.regions = [] := by
  decide

/-- C5: under Best-Fit, a block returned by `find_block` is free, is at least
as large as the request, no free block that is large enough is smaller, and no
earlier free block has the same size.  Block sizes are `size_t` values. -/
theorem C5_best_fit_returns_earliest_smallest (blocks : List s_block) (size k : Nat)
    (hbound : ∀ c ∈ blocks, c.size < SIZE_MOD)
    (hfound : (find_block blocks BEST_FIT size).1 = some k) :
    ∃ b, blocks[k]? = some b ∧ b.free = true ∧ size ≤ b.size ∧
      (∀ c ∈ blocks, c.free = true → size ≤ c.size → b.size ≤ c.size) ∧
      (∀ j c, j < k → blocks[j]? = some c → c.free = true → c.size ≠ b.size) := by
  have h : (best_fit_loop size blocks 0 PAGESIZE none 0).1 = some k := by
    simpa [find_block, BEST_FIT, FIRST_FIT] using hfound
  rcases best_fit_loop_some size blocks 0 PAGESIZE none 0 k hbound (by decide) h with
    ⟨hbest, _⟩ | ⟨j, b, hk, hget, hf, hs, _, hmin, hfirst⟩
  · simp at hbest
  · have hkj : k = j := by omega
    subst hkj
    exact ⟨b, hget, hf, hs, hmin, hfirst⟩

/-- C5, the scenario of the specification: free blocks of sizes 50, 200 and 100
and a request of 80 bytes give the block of size 100. -/
theorem C5_best_fit_scenario :
    ∃ b, [(⟨1000, 50, true, 1040⟩ : s_block), ⟨2000, 200, true, 2040⟩,
        ⟨3000, 100, true, 3040⟩][2]? = some b ∧ b.free = true ∧ 80 ≤ b.size ∧
      (∀ c ∈ [(⟨1000, 50, true, 1040⟩ : s_block), ⟨2000, 200, true, 2040⟩,
        ⟨3000, 100, true, 3040⟩], c.free = true → 80 ≤ c.size → b.size ≤ c.size) ∧
      (∀ j c, j < 2 → [(⟨1000, 50, true, 1040⟩ : s_block), ⟨2000, 200, true, 2040⟩,
        ⟨3000, 100, true, 3040⟩][j]? = some c → c.free = true → c.size ≠ b.size) :=
  C5_best_fit_returns_earliest_smallest
    [⟨1000, 50, true, 1040⟩, ⟨2000, 200, true, 2040⟩, ⟨3000, 100, true, 3040⟩] 80 2
    (by decide) (by decide)

/-- C6: under First-Fit `find_block` returns the first block of the chain that
is free and at least as large as the request, and `NULL` exactly when the chain
has no such block; free blocks of sizes 50, 200, 100 and a request of 80 give
the block of size 200. -/
theorem C6_first_fit_returns_first_qualifying (blocks : List s_block) (size : Nat) :
    (∀ k, (find_block blocks FIRST_FIT size).1 = some k →
      ∃ b, blocks[k]? = some b ∧ b.free = true ∧ size ≤ b.size ∧
        ∀ j c, j < k → blocks[j]? = some c → ¬ (c.free = true ∧ size ≤ c.size)) ∧
    ((find_block blocks FIRST_FIT size).1 = none ↔
      ∀ c ∈ blocks, ¬ (c.free = true ∧ size ≤ c.size)) ∧
    (∀ a1 a2 a3 p1 p2 p3 : Nat,
      (find_block [⟨a1, 50, true, p1⟩, ⟨a2, 200, true, p2⟩, ⟨a3, 100, true, p3⟩]
        FIRST_FIT 80).1 = some 1) := by
  refine ⟨?_, ?_, ?_⟩
  · intro k hk
    have h : (first_fit_loop size blocks 0 0).1 = some k := by
      simpa [find_block] using hk
    obtain ⟨j, b, hkj, hget, hf, hs, hmin⟩ := first_fit_loop_some size blocks 0 0 k h
    have hkj2 : k = j := by omega
    subst hkj2
    exact ⟨b, hget, hf, hs, fun j1 c hj hc => hmin j1 c hj hc⟩
  · have h : (find_block blocks FIRST_FIT size).1 = (first_fit_loop size blocks 0 0).1 := by
      simp [find_block]
    rw [h]
    exact first_fit_loop_none size blocks 0 0
  · intro a1 a2 a3 p1 p2 p3
    rfl

/-- For a request of at least one byte, under Worst-Fit `find_block` returns
the earliest of the largest free blocks that are at least as large as the
request, and `NULL` exactly when no block is free and large enough; free blocks
of sizes 50, 200, 100 and a request of 80 give the block of size 200. -/
theorem worst_fit_returns_earliest_largest (blocks : List s_block) (size : Nat)
    (hsize : 0 < size) :
    (∀ k, (find_block blocks WORST_FIT size).1 = some k →
      ∃ b, blocks[k]? = some b ∧ b.free = true ∧ size ≤ b.size ∧
        (∀ c ∈ blocks, c.free = true → size ≤ c.size → c.size ≤ b.size) ∧
        (∀ j c, j < k → blocks[j]? = some c → c.free = true → size ≤ c.size →
          c.size < b.size)) ∧
    ((find_block blocks WORST_FIT size).1 = none ↔
      ∀ c ∈ blocks, ¬ (c.free = true ∧ size ≤ c.size)) ∧
    (∀ a1 a2 a3 p1 p2 p3 : Nat,
      (find_block [⟨a1, 50, true, p1⟩, ⟨a2, 200, true, p2⟩, ⟨a3, 100, true, p3⟩]
        WORST_FIT 80).1 = some 1) := by
  have hfb : (find_block blocks WORST_FIT size).1 = (worst_fit_loop size blocks 0 0 none 0).1 := by
    simp [find_block, WORST_FIT, FIRST_FIT, BEST_FIT]
  refine ⟨?_, ?_, ?_⟩
  · intro k hk
    rw [hfb] at hk
    rcases worst_fit_loop_some size blocks 0 0 none 0 k hk with
      ⟨hw, _⟩ | ⟨j, b, hkj, hget, hf, hs, _, hmax, hfirst⟩
    · simp at hw
    · have hkj2 : k = j := by omega
      subst hkj2
      exact ⟨b, hget, hf, hs, hmax, hfirst⟩
  · rw [hfb, worst_fit_loop_none]
    constructor
    · intro hx c hc hq
      have := hx.2 c hc hq.1 hq.2
      omega
    · intro hx
      exact ⟨rfl, fun c hc hf hs => absurd ⟨hf, hs⟩ (hx c hc)⟩
  · intro a1 a2 a3 p1 p2 p3
    rfl

/-- C7 (Worst-Fit returns the earliest of the largest free blocks that are
large enough, and `NULL` only when no free block is large enough): the code
does not for a request of 0 bytes.  `max_size` starts at 0 and a block replaces
the tracked one only when `b->size > max_size`, so a free block of size 0 is
never tracked.  Under Worst-Fit, `p = malloc(2^64 - 1)` (the size is aligned to
0, see C1), `free(p)` and `malloc(2^64 - 1)` leave the free block of size 0
unused and take a second region, while First-Fit and Best-Fit hand out the
block at `p`. -/
theorem C7_worst_fit_misses_block_of_size_zero :
    (free (malloc (malloc_control (init 100000 0 [some 4096, some 20000] []) 2)
        18446744073709551615).2 4136).blocks = [⟨4096, 0, true, 4136⟩] ∧
      (find_block [⟨4096, 0, true, 4136⟩] WORST_FIT 0).1 = none ∧
      (find_block [⟨4096, 0, true, 4136⟩] FIRST_FIT 0).1 = some 0 ∧
      (find_block [⟨4096, 0, true, 4136⟩] BEST_FIT 0).1 = some 0 ∧
      (malloc (free (malloc (malloc_control (init 100000 0 [some 4096, some 20000] []) 2)
        18446744073709551615).2 4136) 18446744073709551615).1 = 20040 ∧
      (malloc (free (malloc (malloc_control (init 100000 0 [some 4096, some 20000] []) 2)
        18446744073709551615).2 4136) 18446744073709551615).2.blocks =
        [⟨4096, 0, true, 4136⟩, ⟨20000, 0, false, 20040⟩] ∧
      (malloc (free (malloc (malloc_control (init 100000 0 [some 4096, some 20000] []) 0)
        18446744073709551615).2 4136) 18446744073709551615).1 = 4136 ∧
      (malloc (free (malloc (malloc_control (init 100000 0 [some 4096, some 20000] []) 1)
        18446744073709551615).2 4136) 18446744073709551615).1 = 4136 := by
  decide

/-! ## Claims on `malloc` and `realloc` settled by running the code -/

/-- C1 (a successful `malloc(size)` returns a used block whose recorded size is
at least `size`, for any `size_t` value): the code does not.  For the last seven
values of `size_t` the macro `align` wraps around to 0, so `malloc(2^64 - 1)` on
the empty heap, with the region request granted, returns the payload address
4136 of a used block whose recorded size is 0. -/
theorem C1_malloc_of_wrapped_size_returns_empty_block :
    align (2 ^ 64 - 1) = 0 ∧
      (malloc (init 100000 0 [some 4096] []) (2 ^ 64 - 1)).1 = 4136 ∧
      (malloc (init 100000 0 [some 4096] []) (2 ^ 64 - 1)).2.blocks
        = [⟨4096, 0, false, 4136⟩] ∧
      ¬ (2 ^ 64 - 1 ≤ (⟨4096, 0, false, 4136⟩ : s_block).size) := by
  decide

/-- C8 (with an unknown policy selector `malloc` returns `NULL` and leaves the
chain unchanged): the code does not.  `find_block` reports the error and
returns `NULL` with `*last` still equal to `base`, `malloc` takes that for a
miss and extends the heap after `base`: after three calls `malloc(8)` and
`set_method(3)`, a fourth `malloc(8)` returns the non-null pointer 40040 and the
chain is the first block followed by the new one. -/
theorem C8_unknown_method_extends_after_base :
    (malloc (malloc (malloc (init 100000 0 [some 10000, some 20000, some 30000, some 40000] [])
        8).2 8).2 8).2.blocks
        = [⟨10000, 8, false, 10040⟩, ⟨20000, 8, false, 20040⟩, ⟨30000, 8, false, 30040⟩] ∧
      (malloc (set_method (malloc (malloc (malloc
        (init 100000 0 [some 10000, some 20000, some 30000, some 40000] []) 8).2 8).2 8).2 3)
        8).1 = 40040 ∧
      (malloc (set_method (malloc (malloc (malloc
        (init 100000 0 [some 10000, some 20000, some 30000, some 40000] []) 8).2 8).2 8).2 3)
        8).2.blocks = [⟨10000, 8, false, 10040⟩, ⟨40000, 8, false, 40040⟩] := by
  decide

/-- C9 (the in-place growth of `realloc` counts the absorbed header as the 40
bytes of `BLOCK_SIZE`): the code counts `sizeof(struct s_block)`, which is 48.
With three blocks of 8 bytes of which the middle one is free, `realloc` of the
first block to 60 bytes absorbs its neighbour although 8 + 40 + 8 is only 56,
the block gets size 64 and the chain's footprint grows from 144 to 152. -/
theorem C9_realloc_absorbs_with_sizeof_header :
    sizeof_s_block = 48 ∧ BLOCK_SIZE = 40 ∧
      (free (malloc (malloc (malloc (init 100000 0 [some 10000, some 20000, some 30000] [])
        8).2 8).2 8).2 20040).blocks
        = [⟨10000, 8, false, 10040⟩, ⟨20000, 8, true, 20040⟩, ⟨30000, 8, false, 30040⟩] ∧
      (realloc (free (malloc (malloc (malloc
        (init 100000 0 [some 10000, some 20000, some 30000] []) 8).2 8).2 8).2 20040)
        10040 60).1 = 10040 ∧
      (realloc (free (malloc (malloc (malloc
        (init 100000 0 [some 10000, some 20000, some 30000] []) 8).2 8).2 8).2 20040)
        10040 60).2.blocks = [⟨10000, 64, false, 10040⟩, ⟨30000, 8, false, 30040⟩] ∧
      footprint [⟨10000, 8, false, 10040⟩, ⟨20000, 8, true, 20040⟩, ⟨30000, 8, false, 30040⟩]
        = 144 ∧
      footprint [⟨10000, 64, false, 10040⟩, ⟨30000, 8, false, 30040⟩] = 152 := by
  decide


/-! ## `free` and `fusion` -/

@[simp] theorem free_entry_brk (h0 : Heap) : (free_entry h0).brk = h0.brk := by
  simp [free_entry]

@[simp] theorem free_entry_regions (h0 : Heap) : (free_entry h0).regions = h0.regions := by
  simp [free_entry]

@[simp] theorem free_entry_method (h0 : Heap) : (free_entry h0).method = h0.method := by
  simp [free_entry]

@[simp] theorem free_entry_mem (h0 : Heap) : (free_entry h0).mem = h0.mem := by
  simp [free_entry]

@[simp] theorem realloc_entry_blocks (h0 : Heap) (size : Nat) :
    (realloc_entry h0 size).blocks = h0.blocks := by simp [realloc_entry]

@[simp] theorem realloc_entry_method (h0 : Heap) (size : Nat) :
    (realloc_entry h0 size).method = h0.method := by simp [realloc_entry]

@[simp] theorem realloc_entry_mem (h0 : Heap) (size : Nat) :
    (realloc_entry h0 size).mem = h0.mem := by simp [realloc_entry]

@[simp] theorem realloc_entry_regions (h0 : Heap) (size : Nat) :
    (realloc_entry h0 size).regions = h0.regions := by simp [realloc_entry]

/-! ## What each operation leaves alone -/

/-- Apart from the chain and the region answers, `malloc` returns the state in
which it looked at `base`. -/
theorem malloc_frame (h : Heap) (n : Nat) :
    (malloc h n).2 = { malloc_entry h n with
      blocks := (malloc h n).2.blocks, regions := (malloc h n).2.regions } := by
  unfold malloc extend_heap
  simp only
  by_cases hb : (malloc_entry h n).blocks ≠ []
  · rw [if_pos hb]
    rcases find_block (malloc_entry h n).blocks (malloc_entry h n).method (align n) with
      ⟨_ | b, last⟩
    · simp only
      rcases (malloc_entry h n).regions with _ | ⟨_ | a, rs⟩ <;> rfl
    · simp only
      rcases (malloc_entry h n).blocks[b]? with _ | blk <;> rfl
  · rw [if_neg hb]
    rcases (malloc_entry h n).regions with _ | ⟨_ | a, rs⟩ <;> rfl

theorem malloc_brk (h : Heap) (n : Nat) : (malloc h n).2.brk = h.brk := by
  rw [malloc_frame]; simp

@[simp] theorem add_log_registro_malloc (h : Heap) (op : String) (s c : Nat) :
    (add_log h op s c).registro_malloc = h.registro_malloc := by
  unfold add_log; split <;> rfl

@[simp] theorem add_log_registro_free (h : Heap) (op : String) (s c : Nat) :
    (add_log h op s c).registro_free = h.registro_free := by
  unfold add_log; split <;> rfl

@[simp] theorem add_log_registro_realloc (h : Heap) (op : String) (s c : Nat) :
    (add_log h op s c).registro_realloc = h.registro_realloc := by
  unfold add_log; split <;> rfl

@[simp] theorem add_log_registro_calloc (h : Heap) (op : String) (s c : Nat) :
    (add_log h op s c).registro_calloc = h.registro_calloc := by
  unfold add_log; split <;> rfl

@[simp] theorem add_log_now (h : Heap) (op : String) (s c : Nat) :
    (add_log h op s c).now = h.now := by
  unfold add_log; split <;> rfl

@[simp] theorem malloc_entry_registro_malloc (h0 : Heap) (size : Nat) :
    (malloc_entry h0 size).registro_malloc = h0.registro_malloc + 1 := by simp [malloc_entry]

@[simp] theorem malloc_entry_registro_free (h0 : Heap) (size : Nat) :
    (malloc_entry h0 size).registro_free = h0.registro_free := by simp [malloc_entry]

@[simp] theorem malloc_entry_registro_realloc (h0 : Heap) (size : Nat) :
    (malloc_entry h0 size).registro_realloc = h0.registro_realloc := by simp [malloc_entry]

@[simp] theorem malloc_entry_registro_calloc (h0 : Heap) (size : Nat) :
    (malloc_entry h0 size).registro_calloc = h0.registro_calloc := by simp [malloc_entry]

@[simp] theorem malloc_entry_now (h0 : Heap) (size : Nat) :
    (malloc_entry h0 size).now = h0.now := by simp [malloc_entry]

@[simp] theorem free_entry_registro_malloc (h0 : Heap) :
    (free_entry h0).registro_malloc = h0.registro_malloc := by simp [free_entry]

@[simp] theorem free_entry_registro_free (h0 : Heap) :
    (free_entry h0).registro_free = h0.registro_free + 1 := by simp [free_entry]

@[simp] theorem free_entry_registro_realloc (h0 : Heap) :
    (free_entry h0).registro_realloc = h0.registro_realloc := by simp [free_entry]

@[simp] theorem free_entry_registro_calloc (h0 : Heap) :
    (free_entry h0).registro_calloc = h0.registro_calloc := by simp [free_entry]

@[simp] theorem free_entry_now (h0 : Heap) :
    (free_entry h0).now = h0.now := by simp [free_entry]

@[simp] theorem realloc_entry_registro_malloc (h0 : Heap) (size : Nat) :
    (realloc_entry h0 size).registro_malloc = h0.registro_malloc := by simp [realloc_entry]

@[simp] theorem realloc_entry_registro_free (h0 : Heap) (size : Nat) :
    (realloc_entry h0 size).registro_free = h0.registro_free := by simp [realloc_entry]

@[simp] theorem realloc_entry_registro_realloc (h0 : Heap) (size : Nat) :
    (realloc_entry h0 size).registro_realloc = h0.registro_realloc + 1 := by simp [realloc_entry]

@[simp] theorem realloc_entry_registro_calloc (h0 : Heap) (size : Nat) :
    (realloc_entry h0 size).registro_calloc = h0.registro_calloc := by simp [realloc_entry]

@[simp] theorem realloc_entry_now (h0 : Heap) (size : Nat) :
    (realloc_entry h0 size).now = h0.now := by simp [realloc_entry]

@[simp] theorem calloc_entry_registro_malloc (h0 : Heap) (nitems size : Nat) :
    (calloc_entry h0 nitems size).registro_malloc = h0.registro_malloc := by simp [calloc_entry]

@[simp] theorem calloc_entry_registro_free (h0 : Heap) (nitems size : Nat) :
    (calloc_entry h0 nitems size).registro_free = h0.registro_free := by simp [calloc_entry]

@[simp] theorem calloc_entry_registro_realloc (h0 : Heap) (nitems size : Nat) :
    (calloc_entry h0 nitems size).registro_realloc = h0.registro_realloc := by simp [calloc_entry]

@[simp] theorem calloc_entry_registro_calloc (h0 : Heap) (nitems size : Nat) :
    (calloc_entry h0 nitems size).registro_calloc = h0.registro_calloc + 1 := by simp [calloc_entry]

@[simp] theorem calloc_entry_now (h0 : Heap) (nitems size : Nat) :
    (calloc_entry h0 nitems size).now = h0.now := by simp [calloc_entry]

@[simp] theorem calloc_entry_blocks (h0 : Heap) (nitems size : Nat) :
    (calloc_entry h0 nitems size).blocks = h0.blocks := by simp [calloc_entry]

@[simp] theorem calloc_entry_method (h0 : Heap) (nitems size : Nat) :
    (calloc_entry h0 nitems size).method = h0.method := by simp [calloc_entry]

@[simp] theorem calloc_entry_regions (h0 : Heap) (nitems size : Nat) :
    (calloc_entry h0 nitems size).regions = h0.regions := by simp [calloc_entry]

@[simp] theorem calloc_entry_brk (h0 : Heap) (nitems size : Nat) :
    (calloc_entry h0 nitems size).brk = h0.brk := by simp [calloc_entry]

@[simp] theorem calloc_entry_mem (h0 : Heap) (nitems size : Nat) :
    (calloc_entry h0 nitems size).mem = h0.mem := by simp [calloc_entry]

@[simp] theorem realloc_entry_brk (h0 : Heap) (size : Nat) :
    (realloc_entry h0 size).brk = h0.brk := by simp [realloc_entry]

/-- C17: when `get_block(p)` finds a block of at least `newSize` bytes and
`newSize > 0`, `realloc(p, newSize)` returns `p` and leaves the chain as it was:
no block is split, shrunk, merged or re-flagged. -/
theorem C17_realloc_of_large_enough_block_changes_nothing (h : Heap) (p n k : Nat)
    (blk : s_block) (hp : p ≠ 0) (hn : 0 < n) (hg : get_block h.blocks p = some k)
    (hget : h.blocks[k]? = some blk) (hsz : n ≤ blk.size) :
    (realloc h p n).1 = p ∧ (realloc h p n).2.blocks = h.blocks := by
  obtain ⟨pre, post, hl, hlen⟩ := chain_split_at hget
  subst hlen
  rw [hl] at hg
  unfold realloc
  simp only [if_neg hp, if_neg (Nat.pos_iff_ne_zero.mp hn), realloc_entry_blocks, hl, hg,
    drop_at, ge_iff_le, if_pos hsz, and_self]

/-- C17 on `example_heap`: the block of 16 bytes resized to 10 bytes. -/
theorem C17_realloc_shrink_example :
    (realloc example_heap 2040 10).1 = 2040 ∧
      (realloc example_heap 2040 10).2.blocks = example_heap.blocks :=
  C17_realloc_of_large_enough_block_changes_nothing example_heap 2040 10 1
    ⟨2000, 16, false, 2040⟩ (by decide) (by decide) (by decide) (by decide) (by decide)

theorem memset_read (mem : Nat → Nat) (p v n i : Nat) (hi : i < n) :
    memset mem p v n (p + i) = v := by
  unfold memset
  rw [if_pos ⟨by omega, by omega⟩]

/-- When the product does not wrap and its alignment does not either, a
successful `calloc` returns a used block that holds the product and whose first
`nitems * size` bytes are 0. -/
theorem calloc_zero_fill (h : Heap) (nitems size : Nat) (hfit : nitems * size + 8 ≤ SIZE_MOD)
    (hnz : (calloc h nitems size).1 ≠ 0) :
    (∃ (k : Nat) (blk : s_block), (calloc h nitems size).2.blocks[k]? = some blk ∧
      blk.data = (calloc h nitems size).1 ∧ blk.free = false ∧ nitems * size ≤ blk.size) ∧
    ∀ i, i < nitems * size → (calloc h nitems size).2.mem ((calloc h nitems size).1 + i) = 0 := by
  have htot : (nitems * size) % SIZE_MOD = nitems * size := Nat.mod_eq_of_lt (by omega)
  unfold calloc at hnz ⊢
  simp only [htot] at hnz ⊢
  by_cases hr : (malloc (calloc_entry h nitems size) (nitems * size)).1 = 0
  · rw [if_pos hr] at hnz
    exact absurd rfl hnz
  · rw [if_neg hr]
    constructor
    · obtain ⟨k, blk, hget, hdata, hfree, hsz⟩ :=
        malloc_returns_block (calloc_entry h nitems size) (nitems * size) _ _ rfl hr
      exact ⟨k, blk, hget, hdata, hfree, le_trans (align_ge hfit) hsz⟩
    · intro i hi
      exact memset_read _ _ _ _ _ hi

/-! ## Claims on `calloc` and on failure of the region provider -/

/-- C15 (a successful `calloc(count, elementSize)` returns a payload of at least
`count × elementSize` bytes, all zero, for any `size_t` values): the code does
not.  The product is computed in `size_t` without a check, so `calloc(2^32,
2^32)` asks `malloc` for 0 bytes: on the empty heap, with the region request
granted, it returns the payload address 4136 of a block of 8 bytes, while the
product is `2^64`. -/
theorem C15_calloc_product_wraps :
    (2 ^ 32 * 2 ^ 32) % SIZE_MOD = 0 ∧
      (calloc (init 100000 0 [some 4096] []) (2 ^ 32) (2 ^ 32)).1 = 4136 ∧
      (calloc (init 100000 0 [some 4096] []) (2 ^ 32) (2 ^ 32)).2.blocks
        = [⟨4096, 8, false, 4136⟩] ∧
      ¬ (2 ^ 32 * 2 ^ 32 ≤ (⟨4096, 8, false, 4136⟩ : s_block).size) := by
  decide

theorem malloc_refused (h : Heap) (n : Nat) (hfail : ∀ a rs, h.regions ≠ some a :: rs)
    (hmiss : h.blocks = [] ∨ (find_block h.blocks h.method (align n)).1 = none) :
    (malloc h n).1 = 0 ∧ (malloc h n).2.blocks = h.blocks := by
  unfold malloc extend_heap
  simp only [malloc_entry_blocks, malloc_entry_method, malloc_entry_regions]
  by_cases hb : h.blocks = []
  · rw [if_neg (by simp [hb])]
    rcases hreg : h.regions with _ | ⟨_ | a, rs⟩
    · simp
    · simp
    · exact absurd hreg (hfail a rs)
  · rw [if_pos hb]
    have hnone : (find_block h.blocks h.method (align n)).1 = none := by
      rcases hmiss with hx | hx
      · exact absurd hx hb
      · exact hx
    rcases hfb : find_block h.blocks h.method (align n) with ⟨_ | b, last⟩
    · rcases hreg : h.regions with _ | ⟨_ | a, rs⟩
      · simp
      · simp
      · exact absurd hreg (hfail a rs)
    · rw [hfb] at hnone
      simp at hnone

/-- C16: while the region provider refuses the next request, an operation that
has to ask for a region (the heap is empty or `find_block` selects no block)
returns `NULL` and leaves the chain as it was: `malloc`, `calloc`,
`realloc(NULL, n)`, and `realloc(p, n)` on its last path, where in addition the
free counter is not touched (the block is not freed). -/
theorem C16_out_of_memory_leaves_the_chain (h : Heap)
    (hrefused : h.regions = [] ∨ ∃ rs, h.regions = none :: rs) :
    (∀ n, (h.blocks = [] ∨ (find_block h.blocks h.method (align n)).1 = none) →
      (malloc h n).1 = 0 ∧ (malloc h n).2.blocks = h.blocks) ∧
    (∀ c e, (h.blocks = [] ∨
        (find_block h.blocks h.method (align ((c * e) % SIZE_MOD))).1 = none) →
      (calloc h c e).1 = 0 ∧ (calloc h c e).2.blocks = h.blocks) ∧
    (∀ n, (h.blocks = [] ∨ (find_block h.blocks h.method (align n)).1 = none) →
      (realloc h 0 n).1 = 0 ∧ (realloc h 0 n).2.blocks = h.blocks) ∧
    (∀ p n k blk, p ≠ 0 → n ≠ 0 → get_block h.blocks p = some k →
      h.blocks[k]? = some blk → blk.size < n →
      (∀ nx, h.blocks[k + 1]? = some nx →
        ¬ (nx.free = true ∧ n ≤ (blk.size + sizeof_s_block + nx.size) % SIZE_MOD)) →
      (find_block h.blocks h.method (align n)).1 = none →
      (realloc h p n).1 = 0 ∧ (realloc h p n).2.blocks = h.blocks ∧
        (realloc h p n).2.registro_free = h.registro_free) := by
  have hfail : ∀ a rs, h.regions ≠ some a :: rs := by
    intro a rs hx
    rcases hrefused with hr | ⟨rs1, hr⟩ <;> rw [hr] at hx <;> simp at hx
  refine ⟨fun n hmiss => malloc_refused h n hfail hmiss, ?_, ?_, ?_⟩
  · intro c e hmiss
    have hm := malloc_refused (calloc_entry h c e) ((c * e) % SIZE_MOD)
      (by simpa using hfail) (by simpa using hmiss)
    unfold calloc
    simp only [hm.1, if_true]
    exact ⟨trivial, by simpa using hm.2⟩
  · intro n hmiss
    have hm := malloc_refused (realloc_entry h n) n (by simpa using hfail) (by simpa using hmiss)
    unfold realloc
    simp only [if_true]
    exact ⟨hm.1, by simpa using hm.2⟩
  · intro p n k blk hp hn hg hget hlt hnoabs hmiss
    have hm := malloc_refused (realloc_entry h n) n (by simpa using hfail)
      (Or.inr (by simpa using hmiss))
    have hcopy : realloc_copy (realloc_entry h n) p n k blk
        = (0, (malloc (realloc_entry h n) n).2) := by
      unfold realloc_copy
      simp only [hm.1, if_true]
    have hfree : (malloc (realloc_entry h n) n).2.registro_free = h.registro_free := by
      rw [malloc_frame]; simp
    obtain ⟨pre, post, hl, hlen⟩ := chain_split_at hget
    subst hlen
    rw [hl] at hg
    unfold realloc
    simp only [if_neg hp, if_neg hn, realloc_entry_blocks, hl, hg, drop_at, ge_iff_le,
      if_neg (Nat.not_le.mpr hlt)]
    cases post with
    | nil =>
      simp only [hcopy]
      exact ⟨trivial, by simpa [hl] using hm.2, hfree⟩
    | cons nx rest1 =>
      have hnx : h.blocks[pre.length + 1]? = some nx := by
        rw [hl]
        have := getElem?_at (pre ++ [blk]) rest1 nx
        simpa using this
      simp only [if_neg (hnoabs nx hnx), hcopy]
      exact ⟨trivial, by simpa [hl] using hm.2, hfree⟩

/-- C16 on `oom_heap`: `malloc(100)` and `realloc(2040, 100)` find no block, the
region request is refused, both return `NULL` and leave the four blocks. -/
theorem C16_out_of_memory_example :
    ((malloc oom_heap 100).1 = 0 ∧ (malloc oom_heap 100).2.blocks = oom_heap.blocks) ∧
      ((realloc oom_heap 2040 100).1 = 0 ∧
        (realloc oom_heap 2040 100).2.blocks = oom_heap.blocks ∧
        (realloc oom_heap 2040 100).2.registro_free = oom_heap.registro_free) :=
  ⟨(C16_out_of_memory_leaves_the_chain oom_heap (Or.inr ⟨[], rfl⟩)).1 100 (Or.inr (by decide)),
    (C16_out_of_memory_leaves_the_chain oom_heap (Or.inr ⟨[], rfl⟩)).2.2.2 2040 100 1
      ⟨2000, 16, false, 2040⟩ (by decide) (by decide) (by decide) (by decide) (by decide)
      (by decide) (by decide)⟩


/-! ## Reuse of a freed block under First-Fit -/

/-- C22 fails on the code: `valid_addr` compares the pointer with `sbrk(0)` and
with `base`, while the blocks come from `mmap`.  With the region at 50000 above
a program break of 4096, `p = malloc(64)` is rejected and `free(p)` leaves the
block used; with the break high enough but the second region below the first,
the pointer into the second region is rejected as well. -/
theorem C22_valid_addr_rejects_malloc_pointer :
    ((malloc (init 4096 0 [some 50000] []) 64).1 = 50040 ∧
      (malloc (init 4096 0 [some 50000] []) 64).2.blocks = [⟨50000, 64, false, 50040⟩] ∧
      valid_addr (malloc (init 4096 0 [some 50000] []) 64).2 50040 = false ∧
      (free (malloc (init 4096 0 [some 50000] []) 64).2 50040).blocks =
        [⟨50000, 64, false, 50040⟩]) ∧
    ((malloc (malloc (init 100000 0 [some 50000, some 10000] []) 8).2 8).1 = 10040 ∧
      (malloc (malloc (init 100000 0 [some 50000, some 10000] []) 8).2 8).2.blocks =
        [⟨50000, 8, false, 50040⟩, ⟨10000, 8, false, 10040⟩] ∧
      valid_addr (malloc (malloc (init 100000 0 [some 50000, some 10000] []) 8).2 8).2 10040 =
        false ∧
      (free (malloc (malloc (init 100000 0 [some 50000, some 10000] []) 8).2 8).2 10040).blocks =
        [⟨50000, 8, false, 50040⟩, ⟨10000, 8, false, 10040⟩]) := by
  decide


/-! ## Claims settled on the bytes of the address space -/

set_option maxRecDepth 100000 in
/-- C21 fails on the code.  In one region, after three in-place `realloc`s, each
adding `sizeof(struct s_block)` = 48 where the absorbed block with its header
takes 40 + 8 bytes, the free block at 4096 records 176 bytes and the next block
stands at 4288; `malloc(128)` splits it and writes the new header at 4264, whose
member `free` is the member `size` of the block at 4288: the chain read from
`base` then holds a block of size 1. -/
theorem C21_split_header_overwrites_a_size :
    Raw.observe (fun m => Raw.chain m.space 4 m.base)
        (Raw.run 64 (Raw.start 100000 0 Raw.one_region_answers) (Raw.size_calls.take 14)) =
      Raw.Result.ok [(4096, 176, 1, 4288), (4288, 8, 0, 4336), (4336, 2760, 1, 0)] ∧
    Raw.observe (fun m => Raw.chain m.space 4 m.base)
        (Raw.run 64 (Raw.start 100000 0 Raw.one_region_answers) Raw.size_calls) =
      Raw.Result.ok
        [(4096, 128, 0, 4264), (4264, 8, 1, 4288), (4288, 1, 0, 4304), (4304, 4264, 0, 0)] := by
  decide


set_option maxRecDepth 100000 in
set_option maxHeartbeats 4000000 in
/-- C23 fails on the code.  After six in-place `realloc`s the free block at 4096
records 344 bytes, 48 more than the 296 it has in front of the used block at
4432 (whose `ptr` is 4472).  `malloc(296)` finds it with `B - s` = 48 and
returns 4136, and `split_block` writes the new header at 4136 + 296 = 4432, over
the header of its successor: that block is now free with `next` and `prev`
itself, and the block at 4480 has left the chain. -/
theorem C23_split_header_overwrites_the_successor :
    Raw.observe (fun m => Raw.chain m.space 4 m.base)
        (Raw.run 64 (Raw.start 100000 0 Raw.one_region_answers) Raw.link_calls) =
      Raw.Result.ok [(4096, 344, 1, 4432), (4432, 8, 0, 4480), (4480, 3616, 1, 0)] ∧
    (Raw.run 64 (Raw.start 100000 0 Raw.one_region_answers) Raw.link_calls).bind
        (fun m => (Raw.malloc 64 m 296).bind
          (fun r => Raw.Result.ok
            [Raw.le_value m.space.bytes (4432 + Raw.OFF_PTR) 8, r.1,
              Raw.le_value r.2.space.bytes (4432 + Raw.OFF_PREV) 8,
              Raw.le_value r.2.space.bytes (4432 + Raw.OFF_PTR) 8])) =
      Raw.Result.ok [4472, 4136, 4432, 4472] ∧
    Raw.observe (fun m => Raw.chain m.space 3 m.base)
        (Raw.run 64 (Raw.start 100000 0 Raw.one_region_answers)
          (Raw.link_calls ++ [Raw.Call.malloc 296])) =
      Raw.Result.ok [(4096, 296, 0, 4432), (4432, 8, 1, 4432), (4432, 8, 1, 4432)] := by
  decide


set_option maxRecDepth 100000 in
set_option maxHeartbeats 4000000 in
/-- C24 fails on the code.  With the calls of `link_calls` followed by
`malloc(296)`, every call returns, `base->next` is the block at 4432, which is
free, and the `next` of that block is the block at 4432, free as well; a `free`
of the first block then never leaves the second loop of `fusion`. -/
theorem C24_free_block_with_free_next :
    Raw.observe
        (fun m => [Raw.le_value m.space.bytes (m.base + Raw.OFF_NEXT) 8,
          Raw.le_value m.space.bytes (4432 + Raw.OFF_FREE) 4,
          Raw.le_value m.space.bytes (4432 + Raw.OFF_NEXT) 8])
        (Raw.run 64 (Raw.start 100000 0 Raw.one_region_answers)
          (Raw.link_calls ++ [Raw.Call.malloc 296])) =
      Raw.Result.ok [4432, 1, 4432] ∧
    Raw.observe (fun m => m.base)
        (Raw.run 64 (Raw.start 100000 0 Raw.one_region_answers)
          (Raw.link_calls ++ [Raw.Call.malloc 296, Raw.Call.free 4136])) =
      Raw.Result.timeout := by
  decide

set_option maxRecDepth 100000 in
set_option maxHeartbeats 4000000 in
/-- C10 fails on the code.  Under Best-Fit the free block at 4096 records 8040
bytes after the merge of two blocks that `mmap` placed at 4096 and 12288, and
`p = malloc(3000)` = 8232 lies in a region between them.  With the 3000 bytes at
`p` holding 171, `realloc(p, 5000)` calls `malloc(5000)`, whose `split_block`
writes its header at 4136 + 5000 = 9136, inside the payload at `p`, before
`memcpy` copies it: the call returns `q` = 4136 and the bytes at `q + 904` are
those of the header, not 171. -/
theorem C10_realloc_copies_a_header :
    (Raw.run 64 (Raw.start 100000 0 Raw.copy_answers) (Raw.copy_calls.take 5)).bind
        (fun m => (Raw.malloc 64 m 3000).bind (fun r => Raw.Result.ok r.1)) =
      Raw.Result.ok 8232 ∧
    Raw.observe (fun m => (List.range 48).map (fun i => m.space.bytes (8232 + 900 + i)))
        (Raw.run 64 (Raw.start 100000 0 Raw.copy_answers) Raw.copy_calls) =
      Raw.Result.ok (List.replicate 48 171) ∧
    (Raw.run 64 (Raw.start 100000 0 Raw.copy_answers) Raw.copy_calls).bind
        (fun m => (Raw.realloc 64 m 8232 5000).bind
          (fun r => Raw.Result.ok
            (r.1 :: (List.range 48).map (fun i => r.2.space.bytes (r.1 + 900 + i))))) =
      Raw.Result.ok
        [4136, 171, 171, 171, 171, 184, 11, 0, 0, 0, 0, 0, 0, 0, 32, 0, 0, 0, 0, 0, 0, 0, 16, 0,
          0, 0, 0, 0, 0, 1, 0, 0, 0, 171, 171, 171, 171, 216, 35, 0, 0, 0, 0, 0, 0, 171, 171,
          171, 171] := by
  decide

set_option maxRecDepth 100000 in
set_option maxHeartbeats 4000000 in
/-- C20 fails on the code.  With the pages of `mmap` handed out one after the
other, the log record of the second `malloc` lies at 12288, right after the
page of the first block (8192).  After the two blocks are freed the first
records 8040 bytes, and `malloc(4056)` writes the header of the remainder at
8232 + 4056 = 12288, over that record.  Five functions have been entered, all
the records were granted, and the log read from `log_head` is: `malloc`, `free`,
`free`, a record whose `op` is the bytes of 3944 and whose `size` is 8192, and a
record at 12328 that no call wrote; the record of the first `malloc` is not
reached. -/
theorem C20_split_header_overwrites_a_log_record :
    Raw.observe (fun m => m.calls) (Raw.run 64 (Raw.start 100000 0 Raw.log_answers) Raw.log_calls) =
      Raw.Result.ok [Fn.malloc, Fn.free, Fn.free, Fn.malloc, Fn.malloc] ∧
    Raw.observe (fun m => Raw.log_records m.space 8 m.log_head)
        (Raw.run 64 (Raw.start 100000 0 Raw.log_answers) (Raw.log_calls.take 4)) =
      Raw.Result.ok
        [[24576, Raw.op_bytes "free", 0, 2, 20480], [20480, Raw.op_bytes "free", 0, 1, 12288],
          [12288, Raw.op_bytes "malloc", 4000, 2, 4096],
          [4096, Raw.op_bytes "malloc", 4000, 1, 0]] ∧
    Raw.observe (fun m => Raw.log_records m.space 8 m.log_head)
        (Raw.run 64 (Raw.start 100000 0 Raw.log_answers) Raw.log_calls) =
      Raw.Result.ok
        [[28672, Raw.op_bytes "malloc", 4056, 3, 24576], [24576, Raw.op_bytes "free", 0, 2, 20480],
          [20480, Raw.op_bytes "free", 0, 1, 12288], [12288, 3944, 8192, 2, 12328],
          [12328, 2, 0, 0, 0]] := by
  decide

set_option maxRecDepth 100000 in
set_option maxHeartbeats 4000000 in
/-- C12 fails on the code.  In the state that `size_calls` leaves, 4328 is the
pointer that the seventh call, `malloc(8)`, returned.  `free(4328)` returns and
leaves a chain of three blocks; the second `free(4328)` does not return: it
follows the `next` of the block at 4304, which is the address 1, and faults. -/
theorem C12_second_free_faults :
    (Raw.run 64 (Raw.start 100000 0 Raw.one_region_answers) (Raw.size_calls.take 6)).bind
        (fun m => (Raw.malloc 64 m 8).bind (fun r => Raw.Result.ok r.1)) =
      Raw.Result.ok 4328 ∧
    Raw.observe (fun m => Raw.chain m.space 4 m.base)
        (Raw.run 64 (Raw.start 100000 0 Raw.one_region_answers)
          (Raw.size_calls ++ [Raw.Call.free 4328])) =
      Raw.Result.ok [(4096, 128, 0, 4264), (4264, 49, 1, 4304), (4304, 4264, 0, 1)] ∧
    Raw.observe (fun m => Raw.chain m.space 4 m.base)
        (Raw.run 64 (Raw.start 100000 0 Raw.one_region_answers)
          (Raw.size_calls ++ [Raw.Call.free 4328, Raw.Call.free 4328])) =
      Raw.Result.fault := by
  decide


/-! ## Counters on the bytes of the address space -/

end Memory
